import Mathlib

/-!
Formal model of the `ht` heat-transfer correlation library.

The library is a flat collection of pure formula functions (log-mean
temperature difference, radiation, heat-exchanger effectiveness,
material-property lookup) together with string-keyed correlation
dispatchers and static reference tables.  Real-valued formulas are
embedded over `ℝ`; fallible operations (unrecognized correlation names,
division by zero, `log` of a non-positive number) return
`Except HTError _`, mirroring the exceptions raised by the code.
-/

set_option maxRecDepth 100000

namespace HT

/-- Error outcomes of library calls: the descriptive exceptions raised by
the code (value errors for bad correlation names or math domain errors,
zero-division errors, missing table entries). -/
inductive HTError where
  | divByZero
  | mathDomain
  | badName
  | missingProp
  | noMatches
  | insufficientInputs

deriving instance DecidableEq for HTError

deriving instance DecidableEq for Except

/-- Modelled from the spec: the function `LMTD` of the missing module
`ht/core.py` (tutorial lines 7-14), the log-mean temperature difference
of a heat exchanger, with a counterflow and a co-current variant. -/
noncomputable def LMTD (Thi Tho Tci Tco : ℝ) (counterflow : Bool) : ℝ :=
  let dTF1 := if counterflow then Thi - Tco else Thi - Tci
  let dTF2 := if counterflow then Tho - Tci else Tho - Tco
  (dTF2 - dTF1) / Real.log (dTF2 / dTF1)

/-- Stefan-Boltzmann constant as used by the library (CODATA value
5.670367e-8 W/m^2/K^4, recovered from the tutorial's worked example
`q_rad(emissivity=1, T=400) = 1451.613952`). -/
noncomputable def sigmaSB : ℝ := 5.670367e-8

/-- Modelled from the spec: the function `q_rad` of the missing module
`ht/radiation.py` (tutorial lines 106-118), the Stefan-Boltzmann law
with an optional surrounding temperature `T2`. -/
noncomputable def q_rad (emissivity T T2 : ℝ) : ℝ :=
  sigmaSB * emissivity * (T ^ 4 - T2 ^ 4)

/-- The enumerated set of valid heat-exchanger subtype names accepted by
`effectiveness_from_NTU` (tutorial lines 179-191). -/
def effectiveness_subtypes : List String :=
  [r"counterflow", r"parallel", r"crossflow", r"crossflow approximate",
   r"crossflow, mixed Cmin", r"crossflow, mixed Cmax", r"boiler",
   r"condenser", r"S&T"]

/-- Modelled from the spec: the correlation dispatcher
`effectiveness_from_NTU` of the missing module `ht/hx.py` (tutorial
lines 179-222).  Given `NTU` and the heat-capacity ratio `Cr`, it
dispatches on the subtype name among the published closed-form
effectiveness relations (the exact single-pass crossflow relation,
which the code evaluates by quadrature, is modelled here by its
published closed-form approximation); an unrecognized name yields the
descriptive value error `badName`. -/
noncomputable def effectiveness_from_NTU (NTU Cr : ℝ) (subtype : String) :
    Except HTError ℝ :=
  if subtype = (r"counterflow") then
    if Cr < 1 then
      if 1 - Cr * Real.exp (-NTU * (1 - Cr)) = 0 then .error .divByZero
      else .ok ((1 - Real.exp (-NTU * (1 - Cr))) /
                (1 - Cr * Real.exp (-NTU * (1 - Cr))))
    else
      if 1 + NTU = 0 then .error .divByZero
      else .ok (NTU / (1 + NTU))
  else if subtype = (r"parallel") then
    if 1 + Cr = 0 then .error .divByZero
    else .ok ((1 - Real.exp (-NTU * (1 + Cr))) / (1 + Cr))
  else if subtype = (r"crossflow") ∨ subtype = (r"crossflow approximate") then
    if Cr = 0 then .error .divByZero
    else .ok (1 - Real.exp (NTU ^ (0.22 : ℝ) / Cr *
                (Real.exp (-Cr * NTU ^ (0.78 : ℝ)) - 1)))
  else if subtype = (r"crossflow, mixed Cmin") then
    if Cr = 0 then .error .divByZero
    else .ok (1 - Real.exp (-(1 - Real.exp (-Cr * NTU)) / Cr))
  else if subtype = (r"crossflow, mixed Cmax") then
    if Cr = 0 then .error .divByZero
    else .ok ((1 - Real.exp (-Cr * (1 - Real.exp (-NTU)))) / Cr)
  else if subtype = (r"boiler") ∨ subtype = (r"condenser") then
    .ok (1 - Real.exp (-NTU))
  else if subtype = (r"S&T") then
    if 1 - Real.exp (-NTU * Real.sqrt (1 + Cr ^ 2)) = 0 then .error .divByZero
    else if (1 + Cr) + Real.sqrt (1 + Cr ^ 2) *
        (1 + Real.exp (-NTU * Real.sqrt (1 + Cr ^ 2))) /
        (1 - Real.exp (-NTU * Real.sqrt (1 + Cr ^ 2))) = 0 then .error .divByZero
    else .ok (2 / ((1 + Cr) + Real.sqrt (1 + Cr ^ 2) *
        (1 + Real.exp (-NTU * Real.sqrt (1 + Cr ^ 2))) /
        (1 - Real.exp (-NTU * Real.sqrt (1 + Cr ^ 2)))))
  else .error .badName

/-- Temperature-independent properties of a bundled material: thermal
conductivity, density and heat capacity; per the tutorial not every
material has all three. -/
structure Material where
  k : Option ℚ
  rho : Option ℚ
  Cp : Option ℚ

deriving instance DecidableEq for Material

/-- A refractory material: density together with linear coefficients
`(value at 400 degC, slope per K)` for its temperature-dependent thermal
conductivity and heat capacity, tabulated between 400 degC and
1200 degC. -/
structure Refractory where
  rho : ℚ
  kCoef : ℚ × ℚ
  CpCoef : ℚ × ℚ

deriving instance DecidableEq for Refractory

/-- The static reference tables bundled with the library, loaded once at
process start. -/
structure Tables where
  building : List (String × Material)
  refrac : List (String × Refractory)

/-- Exact-key lookup in an association list of named table entries. -/
def lookupTab {α : Type} (l : List (String × α)) (key : String) : Option α :=
  (l.find? (fun p => p.1 == key)).map (fun p => p.2)

/-- Modelled from the spec: a representative fragment of the bundled
material dictionaries (`building_materials` and the ASHRAE tables) of
the missing module `ht/insulation.py`; the spruce entry carries the
exact values shown in the tutorial (lines 56-88). -/
def building_materials : List (String × Material) :=
  [(r"Metals, stainless steel", ⟨some 45, some 7900, some 460⟩),
   (r"Mineral fiber", ⟨some (4/100), some 30, some 840⟩),
   (r"Woods, spruce", ⟨some (9/100), some 400, some 1630⟩),
   (r"Brick, fired clay", ⟨some 1, some 1920, some 790⟩),
   (r"Gypsum board", ⟨some (16/100), some 800, some 1090⟩)]

/-- Modelled from the spec: a representative fragment of the
`refractories` dictionary of the missing module `ht/insulation.py`; the
graphite coefficients reproduce the tutorial's worked values
(`k` 67.0 at the low limit, 62.9851975 at 800 degC, `Cp` 1108.0 at the
low and 1588.0 at the high limit, tutorial lines 90-103). -/
def refractories : List (String × Refractory) :=
  [(r"Graphite", ⟨1900, (67, -(1605921/160000000)), (1108, 6/10)⟩),
   (r"Chamotte", ⟨2100, (12/10, 1/2000), (940, 21/100)⟩)]

/-- The tables as loaded at import time. -/
def theTables : Tables :=
  ⟨building_materials, refractories⟩

/-- Lower limit of the tabulated refractory temperature range,
400 degC = 673.15 K. -/
def Tlow : ℚ := 67315/100

/-- Upper limit of the tabulated refractory temperature range,
1200 degC = 1473.15 K. -/
def Thigh : ℚ := 147315/100

/-- Clamping of a temperature into the tabulated refractory range:
below the range the lower limit is used, above it the upper limit. -/
def clampT (T : ℚ) : ℚ :=
  max Tlow (min Thigh T)

/-- Evaluation of a refractory linear property at a clamped
temperature. -/
def refractoryEval (c : ℚ × ℚ) (T : ℚ) : ℚ :=
  c.1 + c.2 * (clampT T - Tlow)

/-- Modelled from the spec: `k_material` of the missing module
`ht/insulation.py`: thermal conductivity of a material by exact name,
temperature-dependent (with clamping) for refractories. -/
def k_material (tabs : Tables) (ID : String) (T : ℚ) : Except HTError ℚ :=
  match lookupTab tabs.refrac ID with
  | some r => .ok (refractoryEval r.kCoef T)
  | none =>
    match lookupTab tabs.building ID with
    | some m =>
      match m.k with
      | some v => .ok v
      | none => .error .missingProp
    | none => .error .badName

/-- Modelled from the spec: `rho_material` of the missing module
`ht/insulation.py`: density of a material by exact name. -/
def rho_material (tabs : Tables) (ID : String) : Except HTError ℚ :=
  match lookupTab tabs.refrac ID with
  | some r => .ok r.rho
  | none =>
    match lookupTab tabs.building ID with
    | some m =>
      match m.rho with
      | some v => .ok v
      | none => .error .missingProp
    | none => .error .badName

/-- Modelled from the spec: `Cp_material` of the missing module
`ht/insulation.py`: heat capacity of a material by exact name,
temperature-dependent (with clamping) for refractories. -/
def Cp_material (tabs : Tables) (ID : String) (T : ℚ) : Except HTError ℚ :=
  match lookupTab tabs.refrac ID with
  | some r => .ok (refractoryEval r.CpCoef T)
  | none =>
    match lookupTab tabs.building ID with
    | some m =>
      match m.Cp with
      | some v => .ok v
      | none => .error .missingProp
    | none => .error .badName

/-- One row update of the longest-common-subsequence dynamic program:
processes the candidate characters left to right, carrying the previous
row's remaining cells, the diagonal cell and the cell to the left. -/
def lcsUpd (c : Char) : List Char → List ℕ → ℕ → ℕ → List ℕ
  | [], _, _, _ => []
  | a :: as, prevRest, diag, left =>
    let pj := prevRest.headD 0
    let cur := if a = c then diag + 1 else max left pj
    cur :: lcsUpd c as prevRest.tail pj cur

/-- Length of the longest common subsequence of two strings, computed by
the standard row-by-row dynamic program. -/
def lcsLen (s t : String) : ℕ :=
  (t.toList.foldl
    (fun prev c => 0 :: lcsUpd c s.toList prev.tail (prev.headD 0) 0)
    (List.replicate (s.toList.length + 1) 0)).getLastD 0

/-- Modelled from the spec: the fuzzy similarity score used by
`nearest_material` of the missing module `ht/insulation.py` (the code
delegates to difflib's close-match ratio): twice the length of the
longest common subsequence over the total length. -/
def simScore (a b : String) : ℚ :=
  2 * lcsLen a b / ((a.length : ℚ) + b.length)

/-- All material names of the bundled tables, in table order. -/
def materialNames (tabs : Tables) : List String :=
  tabs.building.map (fun p => p.1) ++ tabs.refrac.map (fun p => p.1)

/-- Modelled from the spec: `nearest_material` of the missing module
`ht/insulation.py` (tutorial lines 71-88): returns the table key whose
fuzzy similarity with the queried name is greatest. -/
def nearest_material (tabs : Tables) (name : String) : Except HTError String :=
  match materialNames tabs with
  | [] => .error .noMatches
  | n :: ns =>
    .ok (ns.foldl (fun best cand =>
      if 2 * lcsLen name best * (name.length + cand.length) <
         2 * lcsLen name cand * (name.length + best.length) then cand
      else best) n)

/-- A call to one of the modelled public functions of the library. -/
inductive LibCall where
  | lmtd (Thi Tho Tci Tco : ℝ) (counterflow : Bool)
  | qRad (emissivity T T2 : ℝ)
  | effFromNTU (NTU Cr : ℝ) (subtype : String)
  | kMat (ID : String) (T : ℚ)
  | rhoMat (ID : String)
  | cpMat (ID : String) (T : ℚ)
  | nearestMat (name : String)

/-- The value returned by a public call: a real scalar, a rational table
value, a string key, or a raised error. -/
inductive LibValue where
  | real (x : ℝ)
  | rat (x : ℚ)
  | str (x : String)
  | exn (e : HTError)

/-- Process state of the library: just the reference tables (the
functions keep no other state). -/
structure LibState where
  tables : Tables

/-- Wrapping of a fallible result as a returned value or raised error. -/
def exceptValue {α : Type} (f : α → LibValue) : Except HTError α → LibValue
  | .ok x => f x
  | .error e => .exn e

/-- Evaluation of one public call against the process state; the state
is read (for table lookups) and returned unchanged, as the source
functions never assign to the tables. -/
noncomputable def applyCall (st : LibState) (c : LibCall) : LibValue × LibState :=
  match c with
  | .lmtd Thi Tho Tci Tco cf => (.real (LMTD Thi Tho Tci Tco cf), st)
  | .qRad e T T2 => (.real (q_rad e T T2), st)
  | .effFromNTU NTU Cr subtype =>
      (exceptValue .real (effectiveness_from_NTU NTU Cr subtype), st)
  | .kMat ID T => (exceptValue .rat (k_material st.tables ID T), st)
  | .rhoMat ID => (exceptValue .rat (rho_material st.tables ID), st)
  | .cpMat ID T => (exceptValue .rat (Cp_material st.tables ID T), st)
  | .nearestMat n => (exceptValue .str (nearest_material st.tables n), st)

/-- Evaluation of a sequence of public calls, threading the state. -/
noncomputable def runCalls (st : LibState) : List LibCall → LibState
  | [] => st
  | c :: cs => runCalls (applyCall st c).2 cs

/-- Big-step evaluation relation of a single public call, one rule per
function of the library. -/
inductive Exec : LibState → LibCall → LibValue × LibState → Prop where
  | lmtd : ∀ st Thi Tho Tci Tco cf,
      Exec st (.lmtd Thi Tho Tci Tco cf) (.real (LMTD Thi Tho Tci Tco cf), st)
  | qRad : ∀ st e T T2,
      Exec st (.qRad e T T2) (.real (q_rad e T T2), st)
  | effFromNTU : ∀ st NTU Cr subtype,
      Exec st (.effFromNTU NTU Cr subtype)
        (exceptValue .real (effectiveness_from_NTU NTU Cr subtype), st)
  | kMat : ∀ st ID T,
      Exec st (.kMat ID T) (exceptValue .rat (k_material st.tables ID T), st)
  | rhoMat : ∀ st ID,
      Exec st (.rhoMat ID) (exceptValue .rat (rho_material st.tables ID), st)
  | cpMat : ∀ st ID T,
      Exec st (.cpMat ID T) (exceptValue .rat (Cp_material st.tables ID T), st)
  | nearestMat : ∀ st n,
      Exec st (.nearestMat n) (exceptValue .str (nearest_material st.tables n), st)

/-- Modelled from the spec: the inverse dispatcher
`NTU_from_effectiveness` of the missing module `ht/hx.py`, giving NTU
from the effectiveness by the published closed-form inverses. -/
noncomputable def NTU_from_effectiveness (eff Cr : ℝ) (subtype : String) :
    Except HTError ℝ :=
  if subtype = (r"counterflow") then
    if Cr < 1 then
      if Cr - 1 = 0 then .error .divByZero
      else if (eff - 1) / (eff * Cr - 1) ≤ 0 then .error .mathDomain
      else .ok (1 / (Cr - 1) * Real.log ((eff - 1) / (eff * Cr - 1)))
    else
      if 1 - eff = 0 then .error .divByZero
      else .ok (eff / (1 - eff))
  else if subtype = (r"parallel") then
    if 1 + Cr = 0 then .error .divByZero
    else if 1 - eff * (1 + Cr) ≤ 0 then .error .mathDomain
    else .ok (-Real.log (1 - eff * (1 + Cr)) / (1 + Cr))
  else if subtype = (r"crossflow, mixed Cmin") then
    if Cr = 0 then .error .divByZero
    else if 1 - eff ≤ 0 then .error .mathDomain
    else if 1 + Cr * Real.log (1 - eff) ≤ 0 then .error .mathDomain
    else .ok (-Real.log (1 + Cr * Real.log (1 - eff)) / Cr)
  else if subtype = (r"crossflow, mixed Cmax") then
    if Cr = 0 then .error .divByZero
    else if 1 - Cr * eff ≤ 0 then .error .mathDomain
    else if 1 + Real.log (1 - Cr * eff) / Cr ≤ 0 then .error .mathDomain
    else .ok (-Real.log (1 + Real.log (1 - Cr * eff) / Cr))
  else if subtype = (r"boiler") ∨ subtype = (r"condenser") then
    if 1 - eff ≤ 0 then .error .mathDomain
    else .ok (-Real.log (1 - eff))
  else .error .badName

/-- The association list of derived quantities returned by
`effectiveness_NTU_method`, in its fixed key order. -/
def hxResult (Cmax Cmin Cr NTU Q Tci Tco Thi Tho UA eff : ℝ) :
    List (String × ℝ) :=
  [(r"Cmax", Cmax), (r"Cmin", Cmin), (r"Cr", Cr), (r"NTU", NTU), (r"Q", Q),
   (r"Tci", Tci), (r"Tco", Tco), (r"Thi", Thi), (r"Tho", Tho), (r"UA", UA),
   (r"effectiveness", eff)]

/-- The fixed keys of the mapping returned by
`effectiveness_NTU_method`. -/
def hxKeys : List String :=
  [r"Cmax", r"Cmin", r"Cr", r"NTU", r"Q", r"Tci", r"Tco", r"Thi", r"Tho",
   r"UA", r"effectiveness"]

/-- Modelled from the spec: the wrapper `effectiveness_NTU_method` of
the missing module `ht/hx.py` (tutorial lines 222-250).  Given the mass
flows and heat capacities of both streams, the subtype, and either the
cold and hot inlet temperatures with UA, or three of the four stream
temperatures, it solves the exchanger and returns all derived
quantities as a fixed mapping (the remaining documented input
combinations are not modelled). -/
noncomputable def effectiveness_NTU_method (mh mc Cph Cpc : ℝ)
    (subtype : String) (Tci Tco Thi Tho UA : Option ℝ) :
    Except HTError (List (String × ℝ)) :=
  if max (mc * Cpc) (mh * Cph) = 0 then .error .divByZero
  else
    match UA with
    | some ua =>
      if min (mc * Cpc) (mh * Cph) = 0 then .error .divByZero
      else
        match effectiveness_from_NTU (ua / min (mc * Cpc) (mh * Cph))
            (min (mc * Cpc) (mh * Cph) / max (mc * Cpc) (mh * Cph)) subtype with
        | .error e => .error e
        | .ok eff =>
          match Tci, Thi with
          | some tci, some thi =>
            if mc * Cpc = 0 then .error .divByZero
            else if mh * Cph = 0 then .error .divByZero
            else
              .ok (hxResult (max (mc * Cpc) (mh * Cph))
                (min (mc * Cpc) (mh * Cph))
                (min (mc * Cpc) (mh * Cph) / max (mc * Cpc) (mh * Cph))
                (ua / min (mc * Cpc) (mh * Cph))
                (eff * min (mc * Cpc) (mh * Cph) * (thi - tci)) tci
                (tci + eff * min (mc * Cpc) (mh * Cph) * (thi - tci) / (mc * Cpc))
                thi
                (thi - eff * min (mc * Cpc) (mh * Cph) * (thi - tci) / (mh * Cph))
                ua eff)
          | _, _ => .error .insufficientInputs
    | none =>
      match Tci, Tco, Thi with
      | some tci, some tco, some thi =>
        if mc * Cpc = 0 then .error .divByZero
        else if mh * Cph = 0 then .error .divByZero
        else if min (mc * Cpc) (mh * Cph) = 0 then .error .divByZero
        else if thi - tci = 0 then .error .divByZero
        else
          match NTU_from_effectiveness
              (mc * Cpc * (tco - tci) / (min (mc * Cpc) (mh * Cph) * (thi - tci)))
              (min (mc * Cpc) (mh * Cph) / max (mc * Cpc) (mh * Cph))
              subtype with
          | .error e => .error e
          | .ok NTU =>
            .ok (hxResult (max (mc * Cpc) (mh * Cph))
              (min (mc * Cpc) (mh * Cph))
              (min (mc * Cpc) (mh * Cph) / max (mc * Cpc) (mh * Cph)) NTU
              (mc * Cpc * (tco - tci)) tci tco thi
              (thi - mc * Cpc * (tco - tci) / (mh * Cph))
              (NTU * min (mc * Cpc) (mh * Cph))
              (mc * Cpc * (tco - tci) / (min (mc * Cpc) (mh * Cph) * (thi - tci))))
      | _, _, _ => .error .insufficientInputs

/-- Modelled from the spec: `F_LMTD_Fakheri` of the missing module
`ht/hx.py` (tutorial lines 160-167), Fakheri's general expression for
the log-mean temperature difference correction factor of a counterflow
shell-and-tube exchanger with `shells` shell passes.  Zero divisors and
non-positive arguments to `log` raise, as the float code does. -/
noncomputable def F_LMTD_Fakheri (Tci Tco Thi Tho : ℝ) (shells : ℕ) :
    Except HTError ℝ :=
  if Tco - Tci = 0 then .error .divByZero
  else if Thi - Tci = 0 then .error .divByZero
  else
    let R1 := (Thi - Tho) / (Tco - Tci)
    let P1 := (Tco - Tci) / (Thi - Tci)
    if R1 = 1 then
      if (shells : ℝ) - shells * P1 + P1 = 0 then .error .divByZero
      else
        let W2 := ((shells : ℝ) - shells * P1) / ((shells : ℝ) - shells * P1 + P1)
        if W2 = 0 then .error .divByZero
        else if 1 - W2 = 0 then .error .divByZero
        else if W2 / (1 - W2) - (Real.sqrt 2)⁻¹ = 0 then .error .divByZero
        else if (W2 / (1 - W2) + (Real.sqrt 2)⁻¹) /
            (W2 / (1 - W2) - (Real.sqrt 2)⁻¹) ≤ 0 then .error .mathDomain
        else if Real.log ((W2 / (1 - W2) + (Real.sqrt 2)⁻¹) /
            (W2 / (1 - W2) - (Real.sqrt 2)⁻¹)) = 0 then .error .divByZero
        else .ok (Real.sqrt 2 * (1 - W2) / W2 /
          Real.log ((W2 / (1 - W2) + (Real.sqrt 2)⁻¹) /
            (W2 / (1 - W2) - (Real.sqrt 2)⁻¹)))
    else
      if 1 - P1 = 0 then .error .divByZero
      else
        let W := ((1 - P1 * R1) / (1 - P1)) ^ ((shells : ℝ)⁻¹)
        let S := Real.sqrt (R1 * R1 + 1) / (R1 - 1)
        if 1 + W + S - S * W = 0 then .error .divByZero
        else if (1 + W - S + S * W) / (1 + W + S - S * W) ≤ 0 then
          .error .mathDomain
        else if Real.log ((1 + W - S + S * W) / (1 + W + S - S * W)) = 0 then
          .error .divByZero
        else .ok (S * Real.log W /
          Real.log ((1 + W - S + S * W) / (1 + W + S - S * W)))

/-- Helper for the analysis of Fakheri's correction factor: the odd
function `log ((1+y)/(1-y))` (twice the inverse hyperbolic tangent),
written as a difference of logarithms. -/
noncomputable def Afun (y : ℝ) : ℝ :=
  Real.log (1 + y) - Real.log (1 - y)

lemma exp_neg_lt_one {y : ℝ} (hy : 0 < y) : Real.exp (-y) < 1 := by
  calc Real.exp (-y) < Real.exp 0 := Real.exp_lt_exp.mpr (by linarith)
    _ = 1 := Real.exp_zero

/-- C10: for positive emissivity and positive absolute temperatures, the
radiative flux `q_rad` is negative exactly when the surroundings are
hotter than the object, positive exactly when the object is hotter, and
zero exactly at equal temperatures. -/
theorem q_rad_sign_facts (emissivity T T2 : ℝ)
    (he : 0 < emissivity) (hT : 0 < T) (hT2 : 0 < T2) :
    (q_rad emissivity T T2 < 0 ↔ T < T2) ∧
    (0 < q_rad emissivity T T2 ↔ T2 < T) ∧
    (q_rad emissivity T T2 = 0 ↔ T = T2) := by
  have hs : (0 : ℝ) < sigmaSB * emissivity := by
    have h0 : (0 : ℝ) < sigmaSB := by norm_num [sigmaSB]
    positivity
  have hpow : ∀ a b : ℝ, 0 < a → 0 < b → (a ^ 4 < b ^ 4 ↔ a < b) := by
    intro a b ha hb
    exact pow_lt_pow_iff_left₀ ha.le hb.le (by norm_num)
  have hneg : ∀ x : ℝ, (sigmaSB * emissivity * x < 0 ↔ x < 0) := by
    intro x
    constructor
    · intro h
      by_contra hge
      exact absurd (mul_nonneg hs.le (not_lt.1 hge)) (not_le.2 h)
    · intro h
      exact mul_neg_of_pos_of_neg hs h
  have hpos : ∀ x : ℝ, (0 < sigmaSB * emissivity * x ↔ 0 < x) := by
    intro x
    constructor
    · intro h
      by_contra hge
      have : sigmaSB * emissivity * x ≤ 0 :=
        mul_nonpos_of_nonneg_of_nonpos hs.le (not_lt.1 hge)
      exact absurd this (not_le.2 h)
    · intro h
      exact mul_pos hs h
  have heq4 : T ^ 4 = T2 ^ 4 ↔ T = T2 := by
    constructor
    · intro h
      by_contra hne
      rcases lt_or_gt_of_ne hne with h1 | h1
      · exact absurd h (ne_of_lt ((hpow _ _ hT hT2).2 h1))
      · exact absurd h.symm (ne_of_lt ((hpow _ _ hT2 hT).2 h1))
    · intro h
      rw [h]
  refine ⟨?_, ?_, ?_⟩
  · rw [q_rad, hneg, sub_neg, hpow _ _ hT hT2]
  · rw [q_rad, hpos, sub_pos, hpow _ _ hT2 hT]
  · rw [q_rad, mul_eq_zero]
    simp only [hs.ne', false_or]
    rw [sub_eq_zero, heq4]

/-- Witness for C10 at the tutorial's inputs. -/
theorem q_rad_sign_facts_witness :
    (0 : ℝ) < 1 ∧ (0 < q_rad 1 400 305 ↔ (305 : ℝ) < 400) :=
  ⟨by norm_num,
   (q_rad_sign_facts 1 400 305 (by norm_num) (by norm_num) (by norm_num)).2.1⟩

/-- C1: calling the dispatcher `effectiveness_from_NTU` with a subtype
name outside its enumerated set of valid names yields the descriptive
value error, for all values of the numeric arguments. -/
theorem effectiveness_from_NTU_invalid_name (NTU Cr : ℝ) (subtype : String)
    (h : subtype ∉ effectiveness_subtypes) :
    effectiveness_from_NTU NTU Cr subtype = .error .badName := by
  simp only [effectiveness_subtypes, List.mem_cons, List.not_mem_nil, or_false,
    not_or] at h
  obtain ⟨h1, h2, h3, h4, h5, h6, h7, h8, h9⟩ := h
  simp only [effectiveness_from_NTU, if_neg h1, if_neg h2, if_neg h5,
    if_neg h6, if_neg h9]
  rw [if_neg (by exact fun hc => hc.elim h3 h4),
    if_neg (by exact fun hc => hc.elim h7 h8)]

/-- Witness for C1 at a concrete unrecognized name. -/
theorem effectiveness_from_NTU_invalid_name_witness :
    (r"NOTAMETHOD") ∉ effectiveness_subtypes ∧
    effectiveness_from_NTU 1 (1/2) (r"NOTAMETHOD") = .error .badName :=
  ⟨by decide, effectiveness_from_NTU_invalid_name 1 (1/2) _ (by decide)⟩

/-- C2: for every subtype name in the enumerated valid set and
physically valid inputs (positive NTU, heat-capacity ratio in `(0, 1]`),
the dispatcher `effectiveness_from_NTU` returns a real scalar without
raising. -/
theorem effectiveness_from_NTU_valid_ok (subtype : String)
    (hmem : subtype ∈ effectiveness_subtypes) (NTU Cr : ℝ)
    (hNTU : 0 < NTU) (hCr : 0 < Cr) (hCr1 : Cr ≤ 1) :
    ∃ x, effectiveness_from_NTU NTU Cr subtype = .ok x := by
  fin_cases hmem
  · -- counterflow
    rcases lt_or_eq_of_le hCr1 with hlt | heq
    · have he : Real.exp (-NTU * (1 - Cr)) < 1 := by
        rw [neg_mul]
        exact exp_neg_lt_one (by nlinarith)
      have hd : 0 < 1 - Cr * Real.exp (-NTU * (1 - Cr)) := by
        have hp : 0 < Real.exp (-NTU * (1 - Cr)) := Real.exp_pos _
        nlinarith
      simp only [effectiveness_from_NTU, String.reduceEq, reduceIte,
        if_pos hlt, if_neg hd.ne']
      exact ⟨_, rfl⟩
    · subst heq
      simp only [effectiveness_from_NTU, String.reduceEq, reduceIte,
        if_neg (lt_irrefl (1 : ℝ)),
        if_neg (show ¬(1 + NTU = 0) by linarith)]
      exact ⟨_, rfl⟩
  · -- parallel
    simp only [effectiveness_from_NTU, String.reduceEq, reduceIte,
      if_neg (show ¬(1 + Cr = 0) by linarith)]
    exact ⟨_, rfl⟩
  · -- crossflow
    simp only [effectiveness_from_NTU, String.reduceEq, reduceIte,
      or_false, false_or, if_neg hCr.ne']
    exact ⟨_, rfl⟩
  · -- crossflow approximate
    simp only [effectiveness_from_NTU, String.reduceEq, reduceIte,
      or_false, false_or, if_neg hCr.ne']
    exact ⟨_, rfl⟩
  · -- crossflow, mixed Cmin
    simp only [effectiveness_from_NTU, String.reduceEq, reduceIte,
      or_false, false_or, or_self, if_neg hCr.ne']
    exact ⟨_, rfl⟩
  · -- crossflow, mixed Cmax
    simp only [effectiveness_from_NTU, String.reduceEq, reduceIte,
      or_false, false_or, or_self, if_neg hCr.ne']
    exact ⟨_, rfl⟩
  · -- boiler
    simp only [effectiveness_from_NTU, String.reduceEq, reduceIte,
      or_false, false_or, or_self]
    exact ⟨_, rfl⟩
  · -- condenser
    simp only [effectiveness_from_NTU, String.reduceEq, reduceIte,
      or_false, false_or, or_self]
    exact ⟨_, rfl⟩
  · -- S&T
    have hD : 0 < Real.sqrt (1 + Cr ^ 2) := Real.sqrt_pos.mpr (by positivity)
    have he : Real.exp (-NTU * Real.sqrt (1 + Cr ^ 2)) < 1 := by
      rw [neg_mul]
      exact exp_neg_lt_one (by positivity)
    have hb : 0 < 1 - Real.exp (-NTU * Real.sqrt (1 + Cr ^ 2)) := by linarith
    have hout : 0 < (1 + Cr) + Real.sqrt (1 + Cr ^ 2) *
        (1 + Real.exp (-NTU * Real.sqrt (1 + Cr ^ 2))) /
        (1 - Real.exp (-NTU * Real.sqrt (1 + Cr ^ 2))) := by
      have hp : 0 < Real.exp (-NTU * Real.sqrt (1 + Cr ^ 2)) := Real.exp_pos _
      have hq : 0 < Real.sqrt (1 + Cr ^ 2) *
          (1 + Real.exp (-NTU * Real.sqrt (1 + Cr ^ 2))) /
          (1 - Real.exp (-NTU * Real.sqrt (1 + Cr ^ 2))) := by positivity
      linarith
    simp only [effectiveness_from_NTU, String.reduceEq, reduceIte,
      or_false, false_or, or_self, if_neg hb.ne', if_neg hout.ne']
    exact ⟨_, rfl⟩

/-- Witness for C2 at subtype `counterflow`, `NTU = 1`, `Cr = 1/2`. -/
theorem effectiveness_from_NTU_valid_ok_witness :
    (r"counterflow") ∈ effectiveness_subtypes ∧ (0 : ℝ) < 1 ∧
    (0 : ℝ) < 1/2 ∧ (1/2 : ℝ) ≤ 1 ∧
    ∃ x, effectiveness_from_NTU 1 (1/2) (r"counterflow") = .ok x :=
  ⟨by decide, by norm_num, by norm_num, by norm_num,
   effectiveness_from_NTU_valid_ok _ (by decide) 1 (1/2) (by norm_num)
     (by norm_num) (by norm_num)⟩

/-- C5: evaluation of the modelled public functions is deterministic:
two executions of the same call from the same state produce identical
outcomes. -/
theorem exec_deterministic (st : LibState) (c : LibCall)
    (o₁ o₂ : LibValue × LibState) (h₁ : Exec st c o₁) (h₂ : Exec st c o₂) :
    o₁ = o₂ := by
  cases h₁ <;> cases h₂ <;> rfl

/-- Witness for C5: two runs of a concrete radiation call agree. -/
theorem exec_deterministic_witness :
    (LibValue.real (q_rad 1 400 305), LibState.mk theTables) =
    (LibValue.real (q_rad 1 400 305), LibState.mk theTables) :=
  exec_deterministic ⟨theTables⟩ (.qRad 1 400 305) _ _
    (Exec.qRad ⟨theTables⟩ 1 400 305) (Exec.qRad ⟨theTables⟩ 1 400 305)

/-- C6: the bundled reference tables are invariant under every sequence
of public calls: after any sequence of calls the tables equal their
state at load time. -/
theorem tables_immutable (st : LibState) (cs : List LibCall) :
    (runCalls st cs).tables = st.tables := by
  induction cs generalizing st with
  | nil => rfl
  | cons c cs ih =>
    have happ : (applyCall st c).2 = st := by cases c <;> rfl
    rw [runCalls, happ]
    exact ih st

lemma clampT_of_le_low {T : ℚ} (h : T ≤ Tlow) : clampT T = Tlow := by
  rw [clampT, min_eq_right (h.trans (by norm_num [Tlow, Thigh])),
    max_eq_left h]

lemma clampT_of_high_le {T : ℚ} (h : Thigh ≤ T) : clampT T = Thigh := by
  rw [clampT, min_eq_left h, max_eq_right (by norm_num [Tlow, Thigh])]

/-- C9: for every refractory material and a temperature outside the
tabulated 400 degC to 1200 degC range, `k_material` and `Cp_material`
return the limiting boundary value: the value at the lower limit below
the range, the value at the upper limit above it. -/
theorem refractory_out_of_range_clamps (tabs : Tables) (name : String)
    (r : Refractory) (h : lookupTab tabs.refrac name = some r) (T : ℚ) :
    (T ≤ Tlow →
      k_material tabs name T = k_material tabs name Tlow ∧
      Cp_material tabs name T = Cp_material tabs name Tlow) ∧
    (Thigh ≤ T →
      k_material tabs name T = k_material tabs name Thigh ∧
      Cp_material tabs name T = Cp_material tabs name Thigh) := by
  have hlow : clampT Tlow = Tlow := clampT_of_le_low le_rfl
  have hhigh : clampT Thigh = Thigh := clampT_of_high_le le_rfl
  constructor
  · intro hT
    constructor
    · simp only [k_material, h, refractoryEval, clampT_of_le_low hT, hlow]
    · simp only [Cp_material, h, refractoryEval, clampT_of_le_low hT, hlow]
  · intro hT
    constructor
    · simp only [k_material, h, refractoryEval, clampT_of_high_le hT, hhigh]
    · simp only [Cp_material, h, refractoryEval, clampT_of_high_le hT, hhigh]

/-- Witness for C9: graphite at 1 K clamps to the lower limit, at
8000 K to the upper limit, reproducing the tutorial's values 1108.0 and
1588.0. -/
theorem refractory_out_of_range_clamps_witness :
    lookupTab theTables.refrac (r"Graphite") =
      some ⟨1900, (67, -(1605921/160000000)), (1108, 6/10)⟩ ∧
    (1 : ℚ) ≤ Tlow ∧ Thigh ≤ (8000 : ℚ) ∧
    Cp_material theTables (r"Graphite") 1 =
      Cp_material theTables (r"Graphite") Tlow ∧
    Cp_material theTables (r"Graphite") 8000 =
      Cp_material theTables (r"Graphite") Thigh ∧
    Cp_material theTables (r"Graphite") 1 = .ok 1108 ∧
    Cp_material theTables (r"Graphite") 8000 = .ok 1588 := by
  refine ⟨rfl, by norm_num [Tlow], by norm_num [Thigh],
    ?_, ?_, by with_unfolding_all decide, by with_unfolding_all decide⟩
  · exact ((refractory_out_of_range_clamps theTables (r"Graphite")
      ⟨1900, (67, -(1605921/160000000)), (1108, 6/10)⟩ rfl 1).1
      (by norm_num [Tlow])).2
  · exact ((refractory_out_of_range_clamps theTables (r"Graphite")
      ⟨1900, (67, -(1605921/160000000)), (1108, 6/10)⟩ rfl 8000).2
      (by norm_num [Thigh])).2

lemma foldl_argmax (q n : String) (ns : List String) :
    (ns.foldl (fun b c => if simScore q b < simScore q c then c else b) n = n ∨
     ns.foldl (fun b c => if simScore q b < simScore q c then c else b) n ∈ ns) ∧
    simScore q n ≤
      simScore q (ns.foldl (fun b c => if simScore q b < simScore q c then c else b) n) ∧
    ∀ c ∈ ns, simScore q c ≤
      simScore q (ns.foldl (fun b c => if simScore q b < simScore q c then c else b) n) := by
  induction ns generalizing n with
  | nil => exact ⟨Or.inl rfl, le_rfl, by simp⟩
  | cons m ms ih =>
    simp only [List.foldl_cons, List.mem_cons]
    by_cases hc : simScore q n < simScore q m
    · rw [if_pos hc]
      obtain ⟨hmem, hle, hall⟩ := ih m
      refine ⟨?_, hc.le.trans hle, ?_⟩
      · rcases hmem with h | h
        · exact Or.inr (Or.inl h)
        · exact Or.inr (Or.inr h)
      · intro c hcmem
        rcases hcmem with h | h
        · rw [h]
          exact hle
        · exact hall c h
    · rw [if_neg hc]
      obtain ⟨hmem, hle, hall⟩ := ih n
      refine ⟨?_, hle, ?_⟩
      · rcases hmem with h | h
        · exact Or.inl h
        · exact Or.inr (Or.inr h)
      · intro c hcmem
        rcases hcmem with h | h
        · rw [h]
          exact (not_lt.1 hc).trans hle
        · exact hall c h

lemma scoreLt_iff (q b c : String) (hq : q.length ≠ 0) :
    (2 * lcsLen q b * (q.length + c.length) <
     2 * lcsLen q c * (q.length + b.length)) ↔ simScore q b < simScore q c := by
  have hq0 : (0 : ℚ) < (q.length : ℚ) := by
    exact_mod_cast Nat.pos_of_ne_zero hq
  have hb : (0 : ℚ) < (q.length : ℚ) + b.length := by
    linarith [Nat.cast_nonneg (α := ℚ) b.length]
  have hc : (0 : ℚ) < (q.length : ℚ) + c.length := by
    linarith [Nat.cast_nonneg (α := ℚ) c.length]
  rw [simScore, simScore, div_lt_div_iff₀ hb hc]
  constructor
  · intro h
    exact_mod_cast h
  · intro h
    exact_mod_cast h

lemma nearest_fold_eq (q : String) (hq : q.length ≠ 0) (ns : List String)
    (n : String) :
    ns.foldl (fun best cand =>
      if 2 * lcsLen q best * (q.length + cand.length) <
         2 * lcsLen q cand * (q.length + best.length) then cand
      else best) n =
    ns.foldl (fun best cand =>
      if simScore q best < simScore q cand then cand else best) n := by
  induction ns generalizing n with
  | nil => rfl
  | cons m ms ih =>
    simp only [List.foldl_cons]
    rw [if_congr (scoreLt_iff q n m hq) rfl rfl]
    exact ih _

/-- C4: exact-key lookups into the bundled tables return exactly the
stored values, and `nearest_material` returns a table key whose fuzzy
similarity to the queried name is maximal among all table keys. -/
theorem material_lookup_facts :
    (∀ p, p ∈ theTables.building →
      (∀ v, p.2.k = some v → ∀ T, k_material theTables p.1 T = .ok v) ∧
      (∀ v, p.2.rho = some v → rho_material theTables p.1 = .ok v) ∧
      (∀ v, p.2.Cp = some v → ∀ T, Cp_material theTables p.1 T = .ok v)) ∧
    (∀ tabs q best, q.length ≠ 0 → nearest_material tabs q = .ok best →
      best ∈ materialNames tabs ∧
      ∀ c ∈ materialNames tabs, simScore q c ≤ simScore q best) := by
  constructor
  · intro p hp
    fin_cases hp
    · exact ⟨fun v hv T => by rw [← Option.some_inj.1 hv]; rfl,
        fun v hv => by rw [← Option.some_inj.1 hv]; rfl,
        fun v hv T => by rw [← Option.some_inj.1 hv]; rfl⟩
    · exact ⟨fun v hv T => by rw [← Option.some_inj.1 hv]; rfl,
        fun v hv => by rw [← Option.some_inj.1 hv]; rfl,
        fun v hv T => by rw [← Option.some_inj.1 hv]; rfl⟩
    · exact ⟨fun v hv T => by rw [← Option.some_inj.1 hv]; rfl,
        fun v hv => by rw [← Option.some_inj.1 hv]; rfl,
        fun v hv T => by rw [← Option.some_inj.1 hv]; rfl⟩
    · exact ⟨fun v hv T => by rw [← Option.some_inj.1 hv]; rfl,
        fun v hv => by rw [← Option.some_inj.1 hv]; rfl,
        fun v hv T => by rw [← Option.some_inj.1 hv]; rfl⟩
    · exact ⟨fun v hv T => by rw [← Option.some_inj.1 hv]; rfl,
        fun v hv => by rw [← Option.some_inj.1 hv]; rfl,
        fun v hv T => by rw [← Option.some_inj.1 hv]; rfl⟩
  · intro tabs q best hq h
    rw [nearest_material] at h
    rcases hM : materialNames tabs with _ | ⟨n, ns⟩
    · rw [hM] at h
      exact absurd h (by simp)
    · rw [hM] at h
      have hbest := (nearest_fold_eq q hq ns n).symm.trans (Except.ok.inj h)
      obtain ⟨hmem, hle, hall⟩ := foldl_argmax q n ns
      rw [hbest] at hmem hle hall
      constructor
      · rcases hmem with h1 | h1
        · rw [h1]
          exact List.mem_cons_self n ns
        · exact List.mem_cons_of_mem n h1
      · intro c hc
        rcases List.mem_cons.1 hc with h1 | h1
        · rw [h1]
          exact hle
        · exact hall c h1

/-- Witness for C4: the spruce entry is looked up exactly (tutorial
values 0.09, 400, 1630), and the nearest matches of the tutorial's
inexact queries are the expected keys. -/
theorem material_lookup_facts_witness :
    ((r"Woods, spruce"), (⟨some (9/100), some 400, some 1630⟩ : Material)) ∈
      theTables.building ∧
    k_material theTables (r"Woods, spruce") (29815/100) = .ok (9/100) ∧
    rho_material theTables (r"Woods, spruce") = .ok 400 ∧
    Cp_material theTables (r"Woods, spruce") (29815/100) = .ok 1630 ∧
    nearest_material theTables (r"spruce") = .ok (r"Woods, spruce") ∧
    nearest_material theTables (r"stainless steel") =
      .ok (r"Metals, stainless steel") ∧
    ∀ c ∈ materialNames theTables,
      simScore (r"spruce") c ≤ simScore (r"spruce") (r"Woods, spruce") := by
  have hmem : ((r"Woods, spruce"),
      (⟨some (9/100), some 400, some 1630⟩ : Material)) ∈
      theTables.building := by
    show _ ∈ building_materials
    unfold building_materials
    exact List.mem_cons_of_mem _ (List.mem_cons_of_mem _
      (List.mem_cons_self _ _))
  have hnm : nearest_material theTables (r"spruce") = .ok (r"Woods, spruce") := by
    decide
  refine ⟨hmem, ?_, ?_, ?_, hnm, by decide, ?_⟩
  · exact (material_lookup_facts.1 _ hmem).1 _ rfl _
  · exact (material_lookup_facts.1 _ hmem).2.1 _ rfl
  · exact (material_lookup_facts.1 _ hmem).2.2 _ rfl _
  · exact (material_lookup_facts.2 theTables _ _ (by decide) hnm).2

lemma hxResult_keys (Cmax Cmin Cr NTU Q Tci Tco Thi Tho UA eff : ℝ) :
    (hxResult Cmax Cmin Cr NTU Q Tci Tco Thi Tho UA eff).map Prod.fst =
      hxKeys := rfl

/-- C7: whenever `effectiveness_NTU_method` succeeds, the returned
mapping contains exactly the keys Cmax, Cmin, Cr, NTU, Q, Tci, Tco,
Thi, Tho, UA and effectiveness, in this fixed order. -/
theorem effectiveness_NTU_method_keys (mh mc Cph Cpc : ℝ) (subtype : String)
    (Tci Tco Thi Tho UA : Option ℝ) (out : List (String × ℝ))
    (h : effectiveness_NTU_method mh mc Cph Cpc subtype Tci Tco Thi Tho UA =
      .ok out) :
    out.map Prod.fst = hxKeys := by
  rw [effectiveness_NTU_method.eq_def] at h
  rcases UA with _ | ua <;> rcases Tci with _ | tci <;>
    rcases Thi with _ | thi <;> rcases Tco with _ | tco <;>
    (try dsimp only [] at h) <;> repeat' split at h
  all_goals first
    | exact Except.noConfusion h
    | (rw [← Except.ok.inj h]; exact hxResult_keys _ _ _ _ _ _ _ _ _ _ _)

/-- Witness for C7 at the tutorial's second worked example, with the
boiler subtype. -/
theorem effectiveness_NTU_method_keys_witness :
    ∃ out, effectiveness_NTU_method 5.2 1.45 1860 1900 (r"boiler")
      (some 15) none (some 130) none (some 3041.75) = .ok out ∧
    out.map Prod.fst = hxKeys := by
  have hCc : (1.45 : ℝ) * 1900 = 2755 := by norm_num
  have hCh : (5.2 : ℝ) * 1860 = 9672 := by norm_num
  have hmin : min ((1.45 : ℝ) * 1900) (5.2 * 1860) = 2755 := by
    rw [hCc, hCh]
    exact min_eq_left (by norm_num)
  have hmax : max ((1.45 : ℝ) * 1900) (5.2 * 1860) = 9672 := by
    rw [hCc, hCh]
    exact max_eq_right (by norm_num)
  have heff : effectiveness_from_NTU (3041.75 / 2755) (2755 / 9672)
      (r"boiler") = .ok (1 - Real.exp (-(3041.75 / 2755))) := by
    simp only [effectiveness_from_NTU, String.reduceEq, reduceIte, or_false,
      false_or, or_self]
  have h : effectiveness_NTU_method 5.2 1.45 1860 1900 (r"boiler")
      (some 15) none (some 130) none (some 3041.75) =
      .ok (hxResult 9672 2755 (2755 / 9672) (3041.75 / 2755)
        ((1 - Real.exp (-(3041.75 / 2755))) * 2755 * (130 - 15)) 15
        (15 + (1 - Real.exp (-(3041.75 / 2755))) * 2755 * (130 - 15) / (1.45 * 1900))
        130
        (130 - (1 - Real.exp (-(3041.75 / 2755))) * 2755 * (130 - 15) / (5.2 * 1860))
        3041.75 (1 - Real.exp (-(3041.75 / 2755)))) := by
    rw [effectiveness_NTU_method.eq_def]
    simp only [hmin, hmax, heff]
    norm_num
  exact ⟨_, h, effectiveness_NTU_method_keys 5.2 1.45 1860 1900 _ _ _ _ _ _ _ h⟩

lemma log_299_150_bounds :
    (0.6898082789 : ℝ) < Real.log (299/150) ∧
    Real.log (299/150) < 0.6898082797 := by
  have hsplit : Real.log (299/150) = Real.log 2 + Real.log (1 - 1/300) := by
    rw [show (1 : ℝ) - 1/300 = 299/300 by norm_num,
      show (299/150 : ℝ) = 2 * (299/300) by norm_num,
      Real.log_mul (by norm_num) (by norm_num)]
  have habs := Real.abs_log_sub_add_sum_range_le
    (x := (1 : ℝ)/300) (abs_lt.mpr ⟨by norm_num, by norm_num⟩) 3
  have hs : (∑ i ∈ Finset.range 3, ((1 : ℝ)/300) ^ (i + 1) / (i + 1)) =
      270451/81000000 := by
    simp [Finset.sum_range_succ]
    norm_num
  rw [hs, abs_of_pos (by norm_num : (0 : ℝ) < 1/300)] at habs
  have hb := abs_le.1 habs
  have h2lo := Real.log_two_gt_d9
  have h2hi := Real.log_two_lt_d9
  constructor
  · rw [hsplit]
    have := hb.2
    norm_num at this ⊢
    linarith
  · rw [hsplit]
    have := hb.1
    norm_num at this ⊢
    linarith

lemma log_350_99_bounds :
    (1.2628133033 : ℝ) < Real.log (350/99) ∧
    Real.log (350/99) < 1.2628133054 := by
  have hsplit : Real.log (350/99) =
      2 * Real.log 2 + Real.log (1 - 23/198) := by
    rw [show (1 : ℝ) - 23/198 = 175/198 by norm_num,
      show (350/99 : ℝ) = 2 ^ 2 * (175/198) by norm_num,
      Real.log_mul (by norm_num) (by norm_num), Real.log_pow]
    norm_num
  have habs := Real.abs_log_sub_add_sum_range_le
    (x := (23 : ℝ)/198) (abs_lt.mpr ⟨by norm_num, by norm_num⟩) 9
  have hs : (∑ i ∈ Finset.range 9, ((23 : ℝ)/198) ^ (i + 1) / (i + 1)) =
      72770874657636681977701/589328246696646416762880 := by
    simp [Finset.sum_range_succ]
    norm_num
  rw [hs, abs_of_pos (by norm_num : (0 : ℝ) < 23/198)] at habs
  have hb := abs_le.1 habs
  have h2lo := Real.log_two_gt_d9
  have h2hi := Real.log_two_lt_d9
  constructor
  · rw [hsplit]
    have := hb.2
    norm_num at this ⊢
    linarith
  · rw [hsplit]
    have := hb.1
    norm_num at this ⊢
    linarith

/-- C3: `LMTD` reproduces the tutorial's worked example within 1e-6:
counterflow (the default) gives 43.200409294131525 and co-current flow
gives 39.75251118049003 (absolute agreement to 1e-6 is the precision
statable over the reals; the quoted decimals are the doubles printed by
the doctest). -/
theorem LMTD_tutorial_values :
    |LMTD 100 60 30 40.2 true - 43.200409294131525| < 1e-6 ∧
    |LMTD 100 60 30 40.2 false - 39.75251118049003| < 1e-6 := by
  constructor
  · have hv : LMTD 100 60 30 40.2 true =
        29.8 / Real.log (299/150) := by
      rw [LMTD]
      norm_num
      rw [show (150/299 : ℝ) = (299/150 : ℝ)⁻¹ by norm_num, Real.log_inv,
        neg_div_neg_eq]
    obtain ⟨hlo, hhi⟩ := log_299_150_bounds
    have hpos : (0 : ℝ) < Real.log (299/150) := by linarith
    have h1 : 29.8 / Real.log (299/150) < 29.8 / 0.6898082789 :=
      div_lt_div_of_pos_left (by norm_num) (by norm_num) hlo
    have h2 : 29.8 / 0.6898082797 < 29.8 / Real.log (299/150) :=
      div_lt_div_of_pos_left (by norm_num) hpos hhi
    have hub : (29.8 : ℝ) / 0.6898082789 < 43.200409294131525 + 1e-6 := by
      norm_num
    have hlb : (43.200409294131525 : ℝ) - 1e-6 < 29.8 / 0.6898082797 := by
      norm_num
    rw [hv, abs_lt]
    constructor <;> linarith
  · have hv : LMTD 100 60 30 40.2 false =
        50.2 / Real.log (350/99) := by
      rw [LMTD]
      norm_num
      rw [show (99/350 : ℝ) = (350/99 : ℝ)⁻¹ by norm_num, Real.log_inv,
        neg_div_neg_eq]
    obtain ⟨hlo, hhi⟩ := log_350_99_bounds
    have hpos : (0 : ℝ) < Real.log (350/99) := by linarith
    have h1 : 50.2 / Real.log (350/99) < 50.2 / 1.2628133033 :=
      div_lt_div_of_pos_left (by norm_num) (by norm_num) hlo
    have h2 : 50.2 / 1.2628133054 < 50.2 / Real.log (350/99) :=
      div_lt_div_of_pos_left (by norm_num) hpos hhi
    have hub : (50.2 : ℝ) / 1.2628133033 < 39.75251118049003 + 1e-6 := by
      norm_num
    have hlb : (39.75251118049003 : ℝ) - 1e-6 < 50.2 / 1.2628133054 := by
      norm_num
    rw [hv, abs_lt]
    constructor <;> linarith

lemma Afun_zero : Afun 0 = 0 := by
  simp [Afun]

lemma hasDerivAt_Afun {y : ℝ} (h1 : -1 < y) (h2 : y < 1) :
    HasDerivAt Afun (2 / (1 - y^2)) y := by
  have ha : (1 : ℝ) + y ≠ 0 := by linarith
  have hb : (1 : ℝ) - y ≠ 0 := by linarith
  have hc : (1 : ℝ) - y^2 ≠ 0 := by nlinarith
  have hla : HasDerivAt (fun x : ℝ => Real.log (1 + x)) (1 / (1 + y)) y := by
    have h : HasDerivAt (fun x : ℝ => 1 + x) 1 y := by
      simpa using (hasDerivAt_id y).const_add 1
    exact h.log ha
  have hlb : HasDerivAt (fun x : ℝ => Real.log (1 - x)) (-1 / (1 - y)) y := by
    have h : HasDerivAt (fun x : ℝ => 1 - x) (-1) y := by
      simpa using (hasDerivAt_id y).const_sub 1
    exact h.log hb
  have hsum := hla.sub hlb
  have : HasDerivAt (fun x : ℝ => Real.log (1 + x) - Real.log (1 - x))
      (2 / (1 - y^2)) y := by
    convert hsum using 1
    field_simp
    ring
  exact this

lemma Afun_pos {t : ℝ} (h0 : 0 < t) (h1 : t < 1) : 0 < Afun t := by
  have ha : 0 < Real.log (1 + t) := Real.log_pos (by linarith)
  have hb : Real.log (1 - t) < 0 := Real.log_neg (by linarith) (by linarith)
  rw [Afun]
  linarith

lemma Afun_lt_Afun {a b : ℝ} (ha : -1 < a) (hab : a < b) (hb : b < 1) :
    Afun a < Afun b := by
  have h1 : Real.log (1 + a) < Real.log (1 + b) :=
    Real.log_lt_log (by linarith) (by linarith)
  have h2 : Real.log (1 - b) < Real.log (1 - a) :=
    Real.log_lt_log (by linarith) (by linarith)
  rw [Afun, Afun]
  linarith

lemma lt_of_hasDerivAt_pos_on (f f' : ℝ → ℝ) {a b : ℝ} (hab : a < b)
    (hd : ∀ x ∈ Set.Icc a b, HasDerivAt f (f' x) x)
    (hp : ∀ x ∈ Set.Ioo a b, 0 < f' x) : f a < f b := by
  have hmono : StrictMonoOn f (Set.Icc a b) := by
    refine @strictMonoOn_of_hasDerivWithinAt_pos (Set.Icc a b) (convex_Icc a b)
      f f' (fun x hx => (hd x hx).continuousAt.continuousWithinAt) ?_ ?_
    · intro x hx
      rw [interior_Icc] at hx
      exact (hd x (Set.Ioo_subset_Icc_self hx)).hasDerivWithinAt
    · intro x hx
      rw [interior_Icc] at hx
      exact hp x hx
  exact hmono (Set.left_mem_Icc.mpr hab.le) (Set.right_mem_Icc.mpr hab.le) hab

lemma two_mul_lt_Afun {w : ℝ} (h0 : 0 < w) (h1 : w < 1) : 2 * w < Afun w := by
  have key : (fun x : ℝ => Afun x - 2 * x) 0 < (fun x : ℝ => Afun x - 2 * x) w := by
    refine lt_of_hasDerivAt_pos_on (fun x : ℝ => Afun x - 2 * x)
      (fun x => 2 / (1 - x^2) - 2) h0 ?_ ?_
    · intro x hx
      have hx1 : -1 < x := by linarith [hx.1]
      have hx2 : x < 1 := lt_of_le_of_lt hx.2 h1
      simpa using (hasDerivAt_Afun hx1 hx2).sub
        ((hasDerivAt_id x).const_mul (2 : ℝ))
    · intro x hx
      have hx0 : 0 < x := hx.1
      have hx2 : x < 1 := lt_trans hx.2 h1
      have hd : 0 < 1 - x^2 := by nlinarith
      have h2 : 2 < 2 / (1 - x^2) := by
        rw [lt_div_iff hd]
        nlinarith
      linarith
  simpa [Afun_zero] using key

lemma sigma_superadd {σ t : ℝ} (hσ : 1 < σ) (h0 : 0 < t) (hst : σ * t < 1) :
    σ * Afun t < Afun (σ * t) := by
  have hσ0 : 0 < σ := by linarith
  have ht1 : t < 1 := by nlinarith [mul_lt_mul_of_pos_right hσ h0]
  have key : (fun x : ℝ => Afun (σ * x) - σ * Afun x) 0 <
      (fun x : ℝ => Afun (σ * x) - σ * Afun x) t := by
    refine lt_of_hasDerivAt_pos_on (fun x : ℝ => Afun (σ * x) - σ * Afun x)
      (fun x => 2 / (1 - (σ*x)^2) * σ - σ * (2 / (1 - x^2))) h0 ?_ ?_
    · intro x hx
      obtain ⟨hxa, hxb⟩ := hx
      have hσx1 : σ * x < 1 :=
        lt_of_le_of_lt (mul_le_mul_of_nonneg_left hxb hσ0.le) hst
      have hσxm1 : -1 < σ * x := by nlinarith [mul_nonneg hσ0.le hxa]
      have hx1 : x < 1 := lt_of_le_of_lt hxb ht1
      have hg : HasDerivAt (fun x : ℝ => σ * x) σ x := by
        simpa using (hasDerivAt_id x).const_mul σ
      have hc : HasDerivAt (fun x : ℝ => Afun (σ * x))
          (2 / (1 - (σ*x)^2) * σ) x := by
        have := (hasDerivAt_Afun hσxm1 hσx1).comp x hg
        simpa [Function.comp] using this
      exact hc.sub ((hasDerivAt_Afun (by linarith) hx1).const_mul σ)
    · intro x hx
      obtain ⟨hxa, hxb⟩ := hx
      have hσx0 : 0 < σ * x := mul_pos hσ0 hxa
      have hσx1 : σ * x < 1 := lt_trans (mul_lt_mul_of_pos_left hxb hσ0) hst
      have hx1 : x < 1 := lt_trans hxb ht1
      have hd1 : 0 < 1 - (σ*x)^2 := by
        nlinarith [mul_lt_mul_of_pos_left hσx1 hσx0]
      have hd2 : 0 < 1 - x^2 := by
        nlinarith [mul_lt_mul_of_pos_left hx1 hxa]
      have hxσx : x < σ * x := by
        nlinarith [mul_lt_mul_of_pos_right hσ hxa]
      have hf1 : 0 < σ * x - x := by linarith
      have hf2 : 0 < σ * x + x := by linarith
      have hcmp : 1 - (σ*x)^2 < 1 - x^2 := by nlinarith [mul_pos hf1 hf2]
      have hdiv : 2*σ / (1 - x^2) < 2*σ / (1 - (σ*x)^2) :=
        div_lt_div_of_pos_left (by linarith) hd1 hcmp
      have e1 : 2 / (1 - (σ*x)^2) * σ = 2*σ / (1 - (σ*x)^2) := by ring
      have e2 : σ * (2 / (1 - x^2)) = 2*σ / (1 - x^2) := by ring
      dsimp only
      rw [e1, e2]
      linarith
  simpa [Afun_zero] using key

lemma psi_pos {σ t : ℝ} (hσ : 1 < σ) (h0 : 0 < t) (hst : σ * t < 1) :
    (1 - σ^2*t^2) * Afun (σ*t) < σ * ((1 - t^2) * Afun t) := by
  have hσ0 : 0 < σ := by linarith
  have ht1 : t < 1 := by nlinarith [mul_lt_mul_of_pos_right hσ h0]
  have key : (fun x : ℝ => σ * ((1 - x^2) * Afun x) - (1 - σ^2*x^2) * Afun (σ*x)) 0 <
      (fun x : ℝ => σ * ((1 - x^2) * Afun x) - (1 - σ^2*x^2) * Afun (σ*x)) t := by
    refine lt_of_hasDerivAt_pos_on
      (fun x : ℝ => σ * ((1 - x^2) * Afun x) - (1 - σ^2*x^2) * Afun (σ*x))
      (fun x => 2*σ*x*(σ * Afun (σ*x) - Afun x)) h0 ?_ ?_
    · intro x hx
      obtain ⟨hxa, hxb⟩ := hx
      have hσx1 : σ * x < 1 :=
        lt_of_le_of_lt (mul_le_mul_of_nonneg_left hxb hσ0.le) hst
      have hσx0 : 0 ≤ σ * x := mul_nonneg hσ0.le hxa
      have hσxm1 : -1 < σ * x := by linarith
      have hx1 : x < 1 := lt_of_le_of_lt hxb ht1
      have hxm1 : -1 < x := by linarith
      have hd2 : (1:ℝ) - x^2 ≠ 0 := by
        nlinarith [mul_le_mul_of_nonneg_left hx1.le hxa]
      have hd1 : (1:ℝ) - (σ*x)^2 ≠ 0 := by
        nlinarith [mul_le_mul_of_nonneg_left hσx1.le hσx0]
      have hA := hasDerivAt_Afun hxm1 hx1
      have hg : HasDerivAt (fun x : ℝ => σ * x) σ x := by
        simpa using (hasDerivAt_id x).const_mul σ
      have hAσ : HasDerivAt (fun x : ℝ => Afun (σ * x))
          (2 / (1 - (σ*x)^2) * σ) x := by
        have := (hasDerivAt_Afun hσxm1 hσx1).comp x hg
        simpa [Function.comp] using this
      have hq1 : HasDerivAt (fun x : ℝ => 1 - x^2) (-(2*x)) x := by
        have := (hasDerivAt_pow 2 x).const_sub 1
        simpa using this
      have hq2 : HasDerivAt (fun x : ℝ => 1 - σ^2*x^2) (-(σ^2*(2*x))) x := by
        have := ((hasDerivAt_pow 2 x).const_mul (σ^2)).const_sub 1
        simpa using this
      have hpr1 : HasDerivAt (fun x : ℝ => σ * ((1 - x^2) * Afun x))
          (σ * ((-(2*x)) * Afun x + (1 - x^2) * (2 / (1 - x^2)))) x :=
        (hq1.mul hA).const_mul σ
      have hpr2 : HasDerivAt (fun x : ℝ => (1 - σ^2*x^2) * Afun (σ*x))
          ((-(σ^2*(2*x))) * Afun (σ*x) + (1 - σ^2*x^2) * (2 / (1 - (σ*x)^2) * σ)) x :=
        hq2.mul hAσ
      have := hpr1.sub hpr2
      convert this using 1
      have e1 : (1 - x^2) * (2 / (1 - x^2)) = 2 := by
        field_simp
      have hd1x : (1:ℝ) - σ^2*x^2 ≠ 0 := by
        rw [show σ^2*x^2 = (σ*x)^2 by ring]
        exact hd1
      have e2 : (1 - σ^2*x^2) * (2 / (1 - (σ*x)^2) * σ) = 2*σ := by
        rw [show (σ*x)^2 = σ^2*x^2 by ring]
        field_simp
      rw [e1, e2]
      ring
    · intro x hx
      obtain ⟨hxa, hxb⟩ := hx
      have hσx1 : σ * x < 1 := lt_trans (mul_lt_mul_of_pos_left hxb hσ0) hst
      have hx1 : x < 1 := lt_trans hxb ht1
      have hσx0 : 0 < σ * x := mul_pos hσ0 hxa
      have hxσx : x < σ * x := by
        nlinarith [mul_lt_mul_of_pos_right hσ hxa]
      have hmono : Afun x < Afun (σ*x) :=
        Afun_lt_Afun (by linarith) hxσx hσx1
      have hApos : 0 < Afun (σ*x) := Afun_pos hσx0 hσx1
      have hfac : 0 < σ * Afun (σ*x) - Afun x := by
        nlinarith [mul_lt_mul_of_pos_right hσ hApos]
      have h2σx : 0 < 2*σ*x := by positivity
      exact mul_pos h2σx hfac
  simpa [Afun_zero] using key

lemma Gratio_antitone {σ : ℝ} (hσ : 1 < σ) {a b : ℝ} (h0 : 0 < a)
    (hab : a < b) (hsb : σ * b < 1) :
    σ * Afun b / Afun (σ*b) < σ * Afun a / Afun (σ*a) := by
  have hσ0 : 0 < σ := by linarith
  have hb0 : 0 < b := lt_trans h0 hab
  have hb1 : b < 1 := by nlinarith [mul_lt_mul_of_pos_right hσ hb0]
  have ha1 : a < 1 := by linarith
  have hAa : 0 < Afun a := Afun_pos h0 ha1
  have hAb : 0 < Afun b := Afun_pos (by linarith) hb1
  have hσb0 : 0 < σ * b := mul_pos hσ0 hb0
  have hσa0 : 0 < σ * a := mul_pos hσ0 h0
  have hσa1 : σ * a < 1 := lt_trans (mul_lt_mul_of_pos_left hab hσ0) hsb
  have hAsa : 0 < Afun (σ*a) := Afun_pos hσa0 hσa1
  have hAsb : 0 < Afun (σ*b) := Afun_pos hσb0 hsb
  have key : Afun (σ*a)/Afun a < Afun (σ*b)/Afun b := by
    refine lt_of_hasDerivAt_pos_on (fun x => Afun (σ*x)/Afun x)
      (fun x => (2 / (1 - (σ*x)^2) * σ * Afun x -
        Afun (σ*x) * (2 / (1 - x^2))) / (Afun x)^2) hab ?_ ?_
    · intro x hx
      obtain ⟨hxa, hxb⟩ := hx
      have hx0 : 0 < x := lt_of_lt_of_le h0 hxa
      have hx1 : x < 1 := lt_of_le_of_lt hxb hb1
      have hσx1 : σ * x < 1 :=
        lt_of_le_of_lt (mul_le_mul_of_nonneg_left hxb hσ0.le) hsb
      have hσxm1 : -1 < σ * x := by
        nlinarith [mul_nonneg hσ0.le hx0.le]
      have hA := hasDerivAt_Afun (by linarith : (-1:ℝ) < x) hx1
      have hg : HasDerivAt (fun x : ℝ => σ * x) σ x := by
        simpa using (hasDerivAt_id x).const_mul σ
      have hAσ : HasDerivAt (fun x : ℝ => Afun (σ * x))
          (2 / (1 - (σ*x)^2) * σ) x := by
        have := (hasDerivAt_Afun hσxm1 hσx1).comp x hg
        simpa [Function.comp] using this
      have hAx : Afun x ≠ 0 := (Afun_pos hx0 hx1).ne'
      exact hAσ.div hA hAx
    · intro x hx
      obtain ⟨hxa, hxb⟩ := hx
      have hx0 : 0 < x := lt_trans h0 hxa
      have hx1 : x < 1 := lt_trans hxb hb1
      have hσx1 : σ * x < 1 := lt_trans (mul_lt_mul_of_pos_left hxb hσ0) hsb
      have hσx0 : 0 < σ * x := mul_pos hσ0 hx0
      have hd1 : 0 < 1 - (σ*x)^2 := by
        nlinarith [mul_lt_mul_of_pos_left hσx1 hσx0]
      have hd2 : 0 < 1 - x^2 := by
        nlinarith [mul_lt_mul_of_pos_left hx1 hx0]
      have hψ := psi_pos hσ hx0 hσx1
      have hAx : 0 < Afun x := Afun_pos hx0 hx1
      have hAsx : 0 < Afun (σ*x) := Afun_pos hσx0 hσx1
      have hnum : Afun (σ*x) * (2 / (1 - x^2)) <
          2 / (1 - (σ*x)^2) * σ * Afun x := by
        have hdd : (2 * Afun (σ*x)) * (1 - (σ*x)^2) <
            (2 * σ * Afun x) * (1 - x^2) := by
          have hsq : (σ*x)^2 = σ^2*x^2 := by ring
          nlinarith [hψ]
        have h1 : Afun (σ*x) * (2 / (1 - x^2)) =
            2 * Afun (σ*x) / (1 - x^2) := by ring
        have h2 : 2 / (1 - (σ*x)^2) * σ * Afun x =
            2 * σ * Afun x / (1 - (σ*x)^2) := by ring
        rw [h1, h2, div_lt_div_iff hd2 hd1]
        linarith
      have hden : (0:ℝ) < (Afun x)^2 := by positivity
      exact div_pos (by linarith) hden
  have e1 : σ * Afun a / Afun (σ*a) = σ / (Afun (σ*a)/Afun a) := by
    rw [div_div_eq_mul_div]
  have e2 : σ * Afun b / Afun (σ*b) = σ / (Afun (σ*b)/Afun b) := by
    rw [div_div_eq_mul_div]
  rw [e1, e2]
  exact div_lt_div_of_pos_left hσ0 (div_pos hAsa hAa) key

lemma core_lt_one {σ τ : ℝ} (hσ : 1 < σ) (hτ : 0 < τ) (hστ : σ * τ < 1) :
    σ * Afun τ / Afun (σ*τ) < 1 := by
  have hστ0 : 0 < σ * τ := mul_pos (by linarith) hτ
  exact (div_lt_one (Afun_pos hστ0 hστ)).mpr (sigma_superadd hσ hτ hστ)

lemma Afun_slope_tendsto :
    Filter.Tendsto (fun t => Afun t / t) (nhdsWithin 0 (Set.Ioi 0)) (nhds 2) := by
  have hd : HasDerivAt Afun 2 0 := by
    have := hasDerivAt_Afun (by norm_num : (-1:ℝ) < 0) (by norm_num)
    norm_num at this
    exact this
  have hs := hasDerivAt_iff_tendsto_slope.1 hd
  have hsub : Filter.Tendsto (slope Afun 0) (nhdsWithin 0 (Set.Ioi 0)) (nhds 2) :=
    hs.mono_left (nhdsWithin_mono 0 (fun x hx => ne_of_gt hx))
  refine Filter.Tendsto.congr' ?_ hsub
  filter_upwards [self_mem_nhdsWithin] with t ht
  rw [slope_def_field, Afun_zero, sub_zero, sub_zero]

lemma core_tendsto {σ : ℝ} (hσ : 1 < σ) :
    Filter.Tendsto (fun τ => σ * Afun τ / Afun (σ*τ))
      (nhdsWithin 0 (Set.Ioi 0)) (nhds 1) := by
  have hσ0 : 0 < σ := lt_trans one_pos hσ
  have hmap : Filter.Tendsto (fun τ : ℝ => σ * τ)
      (nhdsWithin 0 (Set.Ioi 0)) (nhdsWithin 0 (Set.Ioi 0)) := by
    refine tendsto_nhdsWithin_of_tendsto_nhds_of_eventually_within _ ?_ ?_
    · have h : Filter.Tendsto (fun τ : ℝ => σ * τ) (nhds 0) (nhds (σ * 0)) :=
        (continuous_const.mul continuous_id).tendsto 0
      rw [mul_zero] at h
      exact h.mono_left nhdsWithin_le_nhds
    · filter_upwards [self_mem_nhdsWithin] with t ht
      exact mul_pos hσ0 ht
  have h2 : Filter.Tendsto (fun τ => Afun (σ*τ) / (σ*τ))
      (nhdsWithin 0 (Set.Ioi 0)) (nhds 2) := Afun_slope_tendsto.comp hmap
  have h3 : Filter.Tendsto (fun τ => Afun τ / τ * (Afun (σ*τ) / (σ*τ))⁻¹)
      (nhdsWithin 0 (Set.Ioi 0)) (nhds (2 * 2⁻¹)) :=
    Afun_slope_tendsto.mul (h2.inv₀ (by norm_num))
  rw [show (2:ℝ) * 2⁻¹ = 1 by norm_num] at h3
  refine Filter.Tendsto.congr' ?_ h3
  filter_upwards [self_mem_nhdsWithin] with t ht
  have ht0 : t ≠ 0 := ne_of_gt ht
  have hσt0 : σ * t ≠ 0 := (mul_pos hσ0 ht).ne'
  rcases eq_or_ne (Afun (σ*t)) 0 with hA | hA
  · rw [hA]
    simp
  · field_simp
    ring

lemma wcore_lt_one {w : ℝ} (h0 : 0 < w) (h1 : w < 1) : 2*w/Afun w < 1 :=
  (div_lt_one (Afun_pos h0 h1)).mpr (two_mul_lt_Afun h0 h1)

lemma wcore_antitone {a b : ℝ} (h0 : 0 < a) (hab : a < b) (hb1 : b < 1) :
    2*b/Afun b < 2*a/Afun a := by
  have hAa := Afun_pos h0 (lt_trans hab hb1)
  have hAb := Afun_pos (lt_trans h0 hab) hb1
  have hba : 1 < b / a := (one_lt_div h0).mpr hab
  have hsa : (b/a) * a < 1 := by
    rw [div_mul_cancel₀ _ h0.ne']
    exact hb1
  have hsup := sigma_superadd hba h0 hsa
  rw [div_mul_cancel₀ _ h0.ne'] at hsup
  have hkey : b * Afun a < a * Afun b := by
    rw [div_mul_eq_mul_div] at hsup
    have := (div_lt_iff h0).1 hsup
    linarith
  rw [div_lt_div_iff hAb hAa]
  nlinarith

lemma wcore_tendsto :
    Filter.Tendsto (fun w => 2*w/Afun w) (nhdsWithin 0 (Set.Ioi 0)) (nhds 1) := by
  have h1 := Afun_slope_tendsto.inv₀ (two_ne_zero)
  have h2 := h1.const_mul (2:ℝ)
  rw [show (2:ℝ) * 2⁻¹ = 1 by norm_num] at h2
  refine Filter.Tendsto.congr' ?_ h2
  filter_upwards [self_mem_nhdsWithin] with t ht
  have ht0 : t ≠ 0 := ne_of_gt ht
  rcases eq_or_ne (Afun t) 0 with hA | hA
  · rw [hA]
    simp
  · field_simp

lemma fakheri_branch_eval (Tci Tco Thi Tho : ℝ) (n : ℕ) (σ τ W S : ℝ)
    (hTc : ¬(Tco - Tci = 0)) (hTh : ¬(Thi - Tci = 0))
    (hR1 : ¬((Thi - Tho) / (Tco - Tci) = 1))
    (hP : ¬(1 - (Tco - Tci) / (Thi - Tci) = 0))
    (hWdef : ((1 - (Tco - Tci) / (Thi - Tci) * ((Thi - Tho) / (Tco - Tci))) /
      (1 - (Tco - Tci) / (Thi - Tci))) ^ ((n : ℝ))⁻¹ = W)
    (hSdef : Real.sqrt ((Thi - Tho) / (Tco - Tci) * ((Thi - Tho) / (Tco - Tci)) + 1) /
      ((Thi - Tho) / (Tco - Tci) - 1) = S)
    (hσ : 1 < σ) (hτ0 : 0 < τ) (hW : 0 < 1 + W)
    (hnum : 1 + W - S + S * W = (1 + W) * (1 - σ * τ))
    (hden : 1 + W + S - S * W = (1 + W) * (1 + σ * τ))
    (hlogW : S * Real.log W = -(σ * Afun τ)) :
    (σ * τ < 1 →
      F_LMTD_Fakheri Tci Tco Thi Tho n = .ok (σ * Afun τ / Afun (σ * τ))) ∧
    (¬(σ * τ < 1) → ∀ y, F_LMTD_Fakheri Tci Tco Thi Tho n ≠ .ok y) := by
  have hσ0 : (0:ℝ) < σ := lt_trans one_pos hσ
  have hστ0 : 0 < σ * τ := mul_pos hσ0 hτ0
  have hτσpos : 0 < 1 + σ * τ := by linarith
  have hdenpos : 0 < (1 + W) * (1 + σ * τ) := mul_pos hW hτσpos
  have hred : F_LMTD_Fakheri Tci Tco Thi Tho n =
      if (1 - σ * τ) / (1 + σ * τ) ≤ 0 then .error .mathDomain
      else if Real.log ((1 - σ * τ) / (1 + σ * τ)) = 0 then .error .divByZero
      else .ok (S * Real.log W / Real.log ((1 - σ * τ) / (1 + σ * τ))) := by
    simp only [F_LMTD_Fakheri]
    rw [if_neg hTc, if_neg hTh, if_neg hR1, if_neg hP, hWdef, hSdef, hnum,
      hden, if_neg hdenpos.ne', mul_div_mul_left _ _ hW.ne']
  constructor
  · intro hdom
    have hrpos : 0 < (1 - σ * τ) / (1 + σ * τ) :=
      div_pos (by linarith) hτσpos
    have hlograt : Real.log ((1 - σ * τ) / (1 + σ * τ)) = -(Afun (σ * τ)) := by
      rw [Real.log_div (by linarith) (by linarith), Afun]
      ring
    have hApos : 0 < Afun (σ * τ) := Afun_pos hστ0 hdom
    rw [hred, if_neg (not_le.mpr hrpos), hlograt,
      if_neg (by simpa using hApos.ne'), hlogW, neg_div_neg_eq]
  · intro hdom y
    have hrle : (1 - σ * τ) / (1 + σ * τ) ≤ 0 :=
      div_nonpos_iff.mpr (Or.inr ⟨by linarith [not_lt.1 hdom], by linarith⟩)
    rw [hred, if_pos hrle]
    exact fun h => Except.noConfusion h

lemma fakheri_branch1_eval (Tci Tco Thi Tho : ℝ) (n : ℕ) (w : ℝ)
    (hTc : ¬(Tco - Tci = 0)) (hTh : ¬(Thi - Tci = 0))
    (hR1 : (Thi - Tho) / (Tco - Tci) = 1)
    (hn : 0 < (n : ℝ))
    (hP0 : 0 < (Tco - Tci) / (Thi - Tci))
    (hP1 : (Tco - Tci) / (Thi - Tci) < 1)
    (hwdef : (Real.sqrt 2)⁻¹ * ((Tco - Tci) / (Thi - Tci)) /
      ((n : ℝ) * (1 - (Tco - Tci) / (Thi - Tci))) = w) :
    (w < 1 → F_LMTD_Fakheri Tci Tco Thi Tho n = .ok (2 * w / Afun w)) ∧
    (¬(w < 1) → ∀ y, F_LMTD_Fakheri Tci Tco Thi Tho n ≠ .ok y) := by
  have hs2 : Real.sqrt 2 * Real.sqrt 2 = 2 := Real.mul_self_sqrt (by norm_num)
  have hs2pos : 0 < Real.sqrt 2 := Real.sqrt_pos.mpr (by norm_num)
  have hs : 0 < (Real.sqrt 2)⁻¹ := inv_pos.mpr hs2pos
  set s : ℝ := (Real.sqrt 2)⁻¹ with hsdef
  set P : ℝ := (Tco - Tci) / (Thi - Tci) with hPdef
  set A : ℝ := (n : ℝ) - n * P with hAdef
  have hA' : A = (n : ℝ) * (1 - P) := by rw [hAdef]; ring
  have hA : 0 < A := by
    rw [hA']
    exact mul_pos hn (by linarith)
  have hAP : 0 < A + P := by linarith
  have hwA : s * P / A = w := by rw [hA']; exact hwdef
  have hw0 : 0 < w := by
    rw [← hwA]
    positivity
  have hred : F_LMTD_Fakheri Tci Tco Thi Tho n =
      if s / w - s = 0 then .error .divByZero
      else if (s / w + s) / (s / w - s) ≤ 0 then .error .mathDomain
      else if Real.log ((s / w + s) / (s / w - s)) = 0 then .error .divByZero
      else .ok (Real.sqrt 2 * P / A / Real.log ((s / w + s) / (s / w - s))) := by
    simp only [F_LMTD_Fakheri]
    rw [if_neg hTc, if_neg hTh, if_pos hR1]
    rw [if_neg hAP.ne']
    have hW2pos : 0 < A / (A + P) := div_pos hA hAP
    rw [if_neg hW2pos.ne']
    have h1W2 : 1 - A / (A + P) = P / (A + P) := by
      rw [one_sub_div hAP.ne']
      ring_nf
    rw [h1W2]
    have h1W2pos : 0 < P / (A + P) := div_pos hP0 hAP
    rw [if_neg h1W2pos.ne']
    have hv : A / (A + P) / (P / (A + P)) = A / P := by
      rw [div_div_div_eq, mul_comm A (A + P), mul_div_mul_left _ _ hAP.ne']
    rw [hv]
    have hvw : A / P = s / w := by
      rw [← hwA]
      field_simp
      ring
    rw [hvw]
    have hval : Real.sqrt 2 * (P / (A + P)) / (A / (A + P)) =
        Real.sqrt 2 * P / A := by
      rw [div_div_eq_mul_div,
        show Real.sqrt 2 * (P / (A + P)) * (A + P) =
          Real.sqrt 2 * P * ((A + P) / (A + P)) from by ring,
        div_self hAP.ne', mul_one]
    rw [hval]
  have hwne : w ≠ 0 := hw0.ne'
  constructor
  · intro hw1
    have hsws : s / w - s = s * (1 - w) / w := by
      field_simp
      ring
    have hswspos : 0 < s / w - s := by
      rw [hsws]
      exact div_pos (mul_pos hs (by linarith)) hw0
    have hswp : 0 < s / w + s := by
      have : 0 < s / w := div_pos hs hw0
      linarith
    have hrat : (s / w + s) / (s / w - s) = (1 + w) / (1 - w) := by
      rw [div_eq_div_iff hswspos.ne' (by linarith : (1:ℝ) - w ≠ 0)]
      field_simp
      ring
    have hlog : Real.log ((1 + w) / (1 - w)) = Afun w := by
      rw [Real.log_div (by linarith) (by linarith), Afun]
    have hApos : 0 < Afun w := Afun_pos hw0 hw1
    have hfin : Real.sqrt 2 * P / A = 2 * w := by
      have hsqrt2 : Real.sqrt 2 = 2 * s := by
        rw [hsdef, ← div_eq_mul_inv, eq_div_iff hs2pos.ne']
        exact hs2
      rw [hsqrt2, ← hwA]
      ring
    rw [hred, if_neg hswspos.ne',
      if_neg (not_le.mpr (div_pos hswp hswspos)), hrat, hlog,
      if_neg hApos.ne', hfin]
  · intro hw1 y
    rcases eq_or_lt_of_le (not_lt.1 hw1) with heq | hlt
    · have hz : s / w - s = 0 := by
        rw [← heq]
        simp
      rw [hred, if_pos hz]
      exact fun h => Except.noConfusion h
    · have hswsneg : s / w - s < 0 := by
        have h1 : s / w < s := by
          rw [div_lt_iff hw0]
          nlinarith
        linarith
      have hswp : 0 < s / w + s := by
        have : 0 < s / w := div_pos hs hw0
        linarith
      have hrle : (s / w + s) / (s / w - s) ≤ 0 :=
        div_nonpos_iff.mpr (Or.inl ⟨hswp.le, hswsneg.le⟩)
      rw [hred, if_neg hswsneg.ne, if_pos hrle]
      exact fun h => Except.noConfusion h

lemma one_sub_div_one_add_lt {u v : ℝ} (hu : -1 < u) (huv : u < v) :
    (1 - v) / (1 + v) < (1 - u) / (1 + u) := by
  rw [div_lt_div_iff (by linarith) (by linarith)]
  nlinarith

lemma sub_one_div_one_add_lt {u v : ℝ} (hu : -1 < u) (huv : u < v) :
    (u - 1) / (1 + u) < (v - 1) / (1 + v) := by
  rw [div_lt_div_iff (by linarith) (by linarith)]
  nlinarith

lemma nat_inv_tendsto_within :
    Filter.Tendsto (fun n : ℕ => ((n : ℝ))⁻¹) Filter.atTop
      (nhdsWithin 0 (Set.Ioi 0)) := by
  refine tendsto_nhdsWithin_of_tendsto_nhds_of_eventually_within _
    tendsto_inverse_atTop_nhds_zero_nat ?_
  refine Filter.eventually_atTop.mpr ⟨1, fun n hn => ?_⟩
  have : (0:ℝ) < (n:ℝ) := by
    exact_mod_cast Nat.lt_of_lt_of_le Nat.zero_lt_one hn
  exact inv_pos.mpr this

lemma num_id_pos (q w : ℝ) (hw : (1:ℝ) + w ≠ 0) :
    1 + w - q + q * w = (1 + w) * (1 - q * ((1 - w) / (1 + w))) := by
  field_simp
  ring

lemma den_id_pos (q w : ℝ) (hw : (1:ℝ) + w ≠ 0) :
    1 + w + q - q * w = (1 + w) * (1 + q * ((1 - w) / (1 + w))) := by
  field_simp
  ring

lemma num_id_neg (q w : ℝ) (hw : (1:ℝ) + w ≠ 0) :
    1 + w - -q + -q * w = (1 + w) * (1 - q * ((w - 1) / (1 + w))) := by
  field_simp
  ring

lemma den_id_neg (q w : ℝ) (hw : (1:ℝ) + w ≠ 0) :
    1 + w + -q - -q * w = (1 + w) * (1 + q * ((w - 1) / (1 + w))) := by
  field_simp
  ring

set_option maxHeartbeats 4000000 in
lemma fakheri_char (Tci Tco Thi Tho : ℝ) (h1 : Tci < Tco) (h2 : Tco ≤ Thi)
    (h3 : Tci < Tho) (h4 : Tho < Thi) :
    ∃ (Φ : ℝ → ℝ) (dom : ℝ → Prop) (τ : ℕ → ℝ),
      (∀ a b, 0 < a → a < b → dom b → dom a) ∧
      (∀ a, 0 < a → dom a → Φ a < 1) ∧
      (∀ a b, 0 < a → a < b → dom b → Φ b < Φ a) ∧
      Filter.Tendsto Φ (nhdsWithin 0 (Set.Ioi 0)) (nhds 1) ∧
      (∀ n, 1 ≤ n → 0 < τ n) ∧
      (∀ n m, 1 ≤ n → n < m → τ m < τ n) ∧
      Filter.Tendsto τ Filter.atTop (nhdsWithin 0 (Set.Ioi 0)) ∧
      (∀ n, 1 ≤ n → dom (τ n) →
        F_LMTD_Fakheri Tci Tco Thi Tho n = .ok (Φ (τ n))) ∧
      (∀ n, 1 ≤ n → ¬dom (τ n) →
        ∀ y, F_LMTD_Fakheri Tci Tco Thi Tho n ≠ .ok y) := by
  have hd1 : 0 < Tco - Tci := by linarith
  have hd2 : 0 < Thi - Tci := by linarith
  have hTc : ¬(Tco - Tci = 0) := hd1.ne'
  have hTh : ¬(Thi - Tci = 0) := hd2.ne'
  rcases eq_or_lt_of_le h2 with hTcoThi | hTcoThi
  · -- degenerate case Tco = Thi: every call fails
    refine ⟨fun _ => 1, fun _ => False, fun n => ((n : ℝ))⁻¹,
      fun a b _ _ hf => hf.elim, fun a _ hf => hf.elim,
      fun a b _ _ hf => hf.elim, tendsto_const_nhds, ?_, ?_,
      nat_inv_tendsto_within, fun n _ hf => hf.elim, ?_⟩
    · intro n hn
      have : (0:ℝ) < (n:ℝ) := by
        exact_mod_cast Nat.lt_of_lt_of_le Nat.zero_lt_one hn
      exact inv_pos.mpr this
    · intro n m hn hnm
      have hn0 : (0:ℝ) < (n:ℝ) := by
        exact_mod_cast Nat.lt_of_lt_of_le Nat.zero_lt_one hn
      have hnm' : (n:ℝ) < (m:ℝ) := by exact_mod_cast hnm
      exact inv_lt_inv_of_lt hn0 hnm'
    · intro n hn _ y
      have hP1 : (Tco - Tci) / (Thi - Tci) = 1 := by
        rw [← hTcoThi]
        exact div_self hTc
      by_cases hR : (Thi - Tho) / (Tco - Tci) = 1
      · simp only [F_LMTD_Fakheri]
        rw [if_neg hTc, if_neg hTh, if_pos hR,
          if_neg (show ¬((n:ℝ) - n * ((Tco - Tci) / (Thi - Tci)) +
            (Tco - Tci) / (Thi - Tci) = 0) from by rw [hP1]; norm_num),
          if_pos (show ((n:ℝ) - n * ((Tco - Tci) / (Thi - Tci))) /
            ((n:ℝ) - n * ((Tco - Tci) / (Thi - Tci)) +
              (Tco - Tci) / (Thi - Tci)) = 0 from by rw [hP1]; norm_num)]
        exact fun h => Except.noConfusion h
      · simp only [F_LMTD_Fakheri]
        rw [if_neg hTc, if_neg hTh, if_neg hR,
          if_pos (show 1 - (Tco - Tci) / (Thi - Tci) = 0 from by
            rw [hP1]; norm_num)]
        exact fun h => Except.noConfusion h
  · -- main case Tco < Thi
    have hd3 : 0 < Thi - Tco := by linarith
    have hP0 : 0 < (Tco - Tci) / (Thi - Tci) := div_pos hd1 hd2
    have hP1 : (Tco - Tci) / (Thi - Tci) < 1 := by
      rw [div_lt_one hd2]
      linarith
    by_cases hR1 : (Thi - Tho) / (Tco - Tci) = 1
    · -- R = 1 branch
      refine ⟨fun t => 2 * t / Afun t, fun t => t < 1,
        fun n => (Real.sqrt 2)⁻¹ * ((Tco - Tci) / (Thi - Tci)) /
          ((n : ℝ) * (1 - (Tco - Tci) / (Thi - Tci))),
        ?_, ?_, ?_, wcore_tendsto, ?_, ?_, ?_, ?_, ?_⟩
      · intro a b h0 hab hb
        linarith
      · intro a h0 ha
        exact wcore_lt_one h0 ha
      · intro a b h0 hab hb
        exact wcore_antitone h0 hab hb
      · intro n hn
        have hn0 : (0:ℝ) < (n:ℝ) := by
          exact_mod_cast Nat.lt_of_lt_of_le Nat.zero_lt_one hn
        have hs : 0 < (Real.sqrt 2)⁻¹ :=
          inv_pos.mpr (Real.sqrt_pos.mpr (by norm_num))
        have h1P : 0 < 1 - (Tco - Tci) / (Thi - Tci) := by linarith
        positivity
      · intro n m hn hnm
        have hn0 : (0:ℝ) < (n:ℝ) := by
          exact_mod_cast Nat.lt_of_lt_of_le Nat.zero_lt_one hn
        have hm0 : (0:ℝ) < (m:ℝ) := by
          have : (n:ℝ) < (m:ℝ) := by exact_mod_cast hnm
          linarith
        have hs : 0 < (Real.sqrt 2)⁻¹ :=
          inv_pos.mpr (Real.sqrt_pos.mpr (by norm_num))
        have h1P : 0 < 1 - (Tco - Tci) / (Thi - Tci) := by linarith
        have hnum : 0 < (Real.sqrt 2)⁻¹ * ((Tco - Tci) / (Thi - Tci)) :=
          mul_pos hs hP0
        refine div_lt_div_of_pos_left hnum (mul_pos hn0 h1P) ?_
        have : (n:ℝ) < (m:ℝ) := by exact_mod_cast hnm
        nlinarith
      · have hs : 0 < (Real.sqrt 2)⁻¹ :=
          inv_pos.mpr (Real.sqrt_pos.mpr (by norm_num))
        have h1P : 0 < 1 - (Tco - Tci) / (Thi - Tci) := by linarith
        have heq : ∀ n : ℕ, (Real.sqrt 2)⁻¹ * ((Tco - Tci) / (Thi - Tci)) /
            ((n : ℝ) * (1 - (Tco - Tci) / (Thi - Tci))) =
            (Real.sqrt 2)⁻¹ * ((Tco - Tci) / (Thi - Tci)) /
              (1 - (Tco - Tci) / (Thi - Tci)) * ((n : ℝ))⁻¹ := by
          intro n
          rw [mul_comm ((n:ℝ)) _, ← div_div, div_eq_mul_inv]
        refine tendsto_nhdsWithin_of_tendsto_nhds_of_eventually_within _ ?_ ?_
        · have hbase := tendsto_inverse_atTop_nhds_zero_nat.const_mul
            ((Real.sqrt 2)⁻¹ * ((Tco - Tci) / (Thi - Tci)) /
              (1 - (Tco - Tci) / (Thi - Tci)))
          rw [mul_zero] at hbase
          refine hbase.congr ?_
          intro n
          rw [heq n]
        · refine Filter.eventually_atTop.mpr ⟨1, fun n hn => ?_⟩
          have hn0 : (0:ℝ) < (n:ℝ) := by
            exact_mod_cast Nat.lt_of_lt_of_le Nat.zero_lt_one hn
          have : 0 < (Real.sqrt 2)⁻¹ * ((Tco - Tci) / (Thi - Tci)) /
              ((n : ℝ) * (1 - (Tco - Tci) / (Thi - Tci))) := by positivity
          exact this
      · intro n hn hdom
        have hn0 : (0:ℝ) < (n:ℝ) := by
          exact_mod_cast Nat.lt_of_lt_of_le Nat.zero_lt_one hn
        exact (fakheri_branch1_eval Tci Tco Thi Tho n _ hTc hTh hR1 hn0
          hP0 hP1 rfl).1 hdom
      · intro n hn hdom
        have hn0 : (0:ℝ) < (n:ℝ) := by
          exact_mod_cast Nat.lt_of_lt_of_le Nat.zero_lt_one hn
        exact (fakheri_branch1_eval Tci Tco Thi Tho n _ hTc hTh hR1 hn0
          hP0 hP1 rfl).2 hdom
    · -- R different from 1
      have h1P : 0 < 1 - (Tco - Tci) / (Thi - Tci) := by linarith
      have hR0 : 0 < (Thi - Tho) / (Tco - Tci) := div_pos (by linarith) hd1
      have hx00 : 0 < (Tho - Tci) / (Thi - Tco) := div_pos (by linarith) hd3
      have hx0eq : (1 - (Tco - Tci) / (Thi - Tci) * ((Thi - Tho) / (Tco - Tci))) /
          (1 - (Tco - Tci) / (Thi - Tci)) = (Tho - Tci) / (Thi - Tco) := by
        rw [div_eq_div_iff h1P.ne' hd3.ne']
        field_simp
        ring
      have hsign : (Thi - Tho) / (Tco - Tci) - 1 =
          (1 - (Tho - Tci) / (Thi - Tco)) * ((Thi - Tco) / (Tco - Tci)) := by
        field_simp
        ring
      have hf : 0 < (Thi - Tco) / (Tco - Tci) := div_pos hd3 hd1
      have hRne : (Thi - Tho) / (Tco - Tci) - 1 ≠ 0 := sub_ne_zero.mpr hR1
      have habs : 0 < |(Thi - Tho) / (Tco - Tci) - 1| := abs_pos.mpr hRne
      have hσgt : 1 < Real.sqrt ((Thi - Tho) / (Tco - Tci) *
          ((Thi - Tho) / (Tco - Tci)) + 1) /
          |(Thi - Tho) / (Tco - Tci) - 1| := by
        rw [one_lt_div habs]
        refine (Real.lt_sqrt (abs_nonneg _)).mpr ?_
        rw [sq_abs]
        nlinarith [hR0]
      have hσ0 : (0:ℝ) < Real.sqrt ((Thi - Tho) / (Tco - Tci) *
          ((Thi - Tho) / (Tco - Tci)) + 1) /
          |(Thi - Tho) / (Tco - Tci) - 1| := lt_trans one_pos hσgt
      rcases lt_or_gt_of_ne hR1 with hRlt | hRgt
      · -- R < 1, so x0 > 1
        have hx01 : 1 < (Tho - Tci) / (Thi - Tco) := by
          by_contra hcon
          push_neg at hcon
          have hge : 0 ≤ (1 - (Tho - Tci) / (Thi - Tco)) *
              ((Thi - Tco) / (Tco - Tci)) :=
            mul_nonneg (by linarith) hf.le
          rw [← hsign] at hge
          have : (Thi - Tho) / (Tco - Tci) - 1 < 0 := by linarith
          linarith
        have hS : Real.sqrt ((Thi - Tho) / (Tco - Tci) *
            ((Thi - Tho) / (Tco - Tci)) + 1) /
            ((Thi - Tho) / (Tco - Tci) - 1) =
            -(Real.sqrt ((Thi - Tho) / (Tco - Tci) *
              ((Thi - Tho) / (Tco - Tci)) + 1) /
              |(Thi - Tho) / (Tco - Tci) - 1|) := by
          rw [abs_of_neg (show (Thi - Tho) / (Tco - Tci) - 1 < 0 by linarith),
            div_neg, neg_neg]
        have hWpos : ∀ n : ℕ,
            0 < ((Tho - Tci) / (Thi - Tco)) ^ ((n:ℝ))⁻¹ :=
          fun n => Real.rpow_pos_of_pos hx00 _
        have hWgt1 : ∀ n : ℕ, 1 ≤ n →
            1 < ((Tho - Tci) / (Thi - Tco)) ^ ((n:ℝ))⁻¹ := by
          intro n hn
          have hn0 : (0:ℝ) < (n:ℝ) := by
            exact_mod_cast Nat.lt_of_lt_of_le Nat.zero_lt_one hn
          exact (Real.one_lt_rpow_iff_of_pos hx00).mpr
            (Or.inl ⟨hx01, inv_pos.mpr hn0⟩)
        refine ⟨fun t => Real.sqrt ((Thi - Tho) / (Tco - Tci) *
            ((Thi - Tho) / (Tco - Tci)) + 1) /
            |(Thi - Tho) / (Tco - Tci) - 1| * Afun t /
            Afun (Real.sqrt ((Thi - Tho) / (Tco - Tci) *
              ((Thi - Tho) / (Tco - Tci)) + 1) /
              |(Thi - Tho) / (Tco - Tci) - 1| * t),
          fun t => Real.sqrt ((Thi - Tho) / (Tco - Tci) *
            ((Thi - Tho) / (Tco - Tci)) + 1) /
            |(Thi - Tho) / (Tco - Tci) - 1| * t < 1,
          fun n => (((Tho - Tci) / (Thi - Tco)) ^ ((n:ℝ))⁻¹ - 1) /
            (1 + ((Tho - Tci) / (Thi - Tco)) ^ ((n:ℝ))⁻¹),
          ?_, ?_, ?_, core_tendsto hσgt, ?_, ?_, ?_, ?_, ?_⟩
        · intro a b h0 hab hb
          have := mul_lt_mul_of_pos_left hab hσ0
          linarith
        · intro a h0 ha
          exact core_lt_one hσgt h0 ha
        · intro a b h0 hab hb
          exact Gratio_antitone hσgt h0 hab hb
        · intro n hn
          have hW1 := hWgt1 n hn
          have hW0 := hWpos n
          exact div_pos (by linarith) (by linarith)
        · intro n m hn hnm
          have hn0 : (0:ℝ) < (n:ℝ) := by
            exact_mod_cast Nat.lt_of_lt_of_le Nat.zero_lt_one hn
          have hm' : (n:ℝ) < (m:ℝ) := by exact_mod_cast hnm
          have hexp : ((m:ℝ))⁻¹ < ((n:ℝ))⁻¹ := inv_lt_inv_of_lt hn0 hm'
          have hWlt := Real.rpow_lt_rpow_of_exponent_lt hx01 hexp
          exact sub_one_div_one_add_lt
            (by linarith [hWpos m] : (-1:ℝ) < _) hWlt
        · have hlogmul := tendsto_inverse_atTop_nhds_zero_nat.const_mul
            (Real.log ((Tho - Tci) / (Thi - Tco)))
          rw [mul_zero] at hlogmul
          have hexp := (Real.continuous_exp.tendsto 0).comp hlogmul
          rw [Real.exp_zero] at hexp
          have hWlim : Filter.Tendsto
              (fun n : ℕ => ((Tho - Tci) / (Thi - Tco)) ^ ((n:ℝ))⁻¹)
              Filter.atTop (nhds 1) := by
            refine hexp.congr ?_
            intro n
            rw [Function.comp]
            rw [Real.rpow_def_of_pos hx00, mul_comm]
          have hconst : Filter.Tendsto (fun _ : ℕ => (1:ℝ))
              Filter.atTop (nhds 1) := tendsto_const_nhds
          have hτlim := (hWlim.sub hconst).div
            (hconst.add hWlim) (by norm_num : (1:ℝ) + 1 ≠ 0)
          norm_num at hτlim
          have hτlim2 : Filter.Tendsto
              (fun n : ℕ => (((Tho - Tci) / (Thi - Tco)) ^ ((n:ℝ))⁻¹ - 1) /
                (1 + ((Tho - Tci) / (Thi - Tco)) ^ ((n:ℝ))⁻¹))
              Filter.atTop (nhds 0) := hτlim
          refine tendsto_nhdsWithin_of_tendsto_nhds_of_eventually_within _
            hτlim2 ?_
          refine Filter.eventually_atTop.mpr ⟨1, fun n hn => ?_⟩
          have hW1 := hWgt1 n hn
          have hW0 := hWpos n
          have hp : 0 < (((Tho - Tci) / (Thi - Tco)) ^ ((n:ℝ))⁻¹ - 1) /
              (1 + ((Tho - Tci) / (Thi - Tco)) ^ ((n:ℝ))⁻¹) :=
            div_pos (by linarith) (by linarith)
          exact hp
        · intro n hn hdom
          have hW1 := hWgt1 n hn
          have hW0 := hWpos n
          have h1Wne : (1:ℝ) + ((Tho - Tci) / (Thi - Tco)) ^ ((n:ℝ))⁻¹ ≠ 0 := by
            positivity
          have hτ0 : 0 < (((Tho - Tci) / (Thi - Tco)) ^ ((n:ℝ))⁻¹ - 1) /
              (1 + ((Tho - Tci) / (Thi - Tco)) ^ ((n:ℝ))⁻¹) :=
            div_pos (by linarith) (by linarith)
          have hAτ : Afun ((((Tho - Tci) / (Thi - Tco)) ^ ((n:ℝ))⁻¹ - 1) /
              (1 + ((Tho - Tci) / (Thi - Tco)) ^ ((n:ℝ))⁻¹)) =
              Real.log (((Tho - Tci) / (Thi - Tco)) ^ ((n:ℝ))⁻¹) := by
            have e1 : 1 + (((Tho - Tci) / (Thi - Tco)) ^ ((n:ℝ))⁻¹ - 1) /
                (1 + ((Tho - Tci) / (Thi - Tco)) ^ ((n:ℝ))⁻¹) =
                2 * ((Tho - Tci) / (Thi - Tco)) ^ ((n:ℝ))⁻¹ /
                (1 + ((Tho - Tci) / (Thi - Tco)) ^ ((n:ℝ))⁻¹) := by
              field_simp
              ring
            have e2 : 1 - (((Tho - Tci) / (Thi - Tco)) ^ ((n:ℝ))⁻¹ - 1) /
                (1 + ((Tho - Tci) / (Thi - Tco)) ^ ((n:ℝ))⁻¹) =
                2 / (1 + ((Tho - Tci) / (Thi - Tco)) ^ ((n:ℝ))⁻¹) := by
              field_simp
              ring
            rw [Afun, e1, e2,
              Real.log_div (mul_ne_zero two_ne_zero (hWpos n).ne') h1Wne,
              Real.log_div two_ne_zero h1Wne,
              Real.log_mul two_ne_zero (hWpos n).ne']
            ring
          refine (fakheri_branch_eval Tci Tco Thi Tho n _ _ _ _
            hTc hTh hR1 h1P.ne' (by rw [hx0eq]) hS hσgt hτ0
            (by linarith) (num_id_neg _ _ h1Wne) (den_id_neg _ _ h1Wne)
            ?_).1 hdom
          rw [hAτ, neg_mul]
        · intro n hn hdom
          have hW1 := hWgt1 n hn
          have hW0 := hWpos n
          have h1Wne : (1:ℝ) + ((Tho - Tci) / (Thi - Tco)) ^ ((n:ℝ))⁻¹ ≠ 0 := by
            positivity
          have hτ0 : 0 < (((Tho - Tci) / (Thi - Tco)) ^ ((n:ℝ))⁻¹ - 1) /
              (1 + ((Tho - Tci) / (Thi - Tco)) ^ ((n:ℝ))⁻¹) :=
            div_pos (by linarith) (by linarith)
          have hAτ : Afun ((((Tho - Tci) / (Thi - Tco)) ^ ((n:ℝ))⁻¹ - 1) /
              (1 + ((Tho - Tci) / (Thi - Tco)) ^ ((n:ℝ))⁻¹)) =
              Real.log (((Tho - Tci) / (Thi - Tco)) ^ ((n:ℝ))⁻¹) := by
            have e1 : 1 + (((Tho - Tci) / (Thi - Tco)) ^ ((n:ℝ))⁻¹ - 1) /
                (1 + ((Tho - Tci) / (Thi - Tco)) ^ ((n:ℝ))⁻¹) =
                2 * ((Tho - Tci) / (Thi - Tco)) ^ ((n:ℝ))⁻¹ /
                (1 + ((Tho - Tci) / (Thi - Tco)) ^ ((n:ℝ))⁻¹) := by
              field_simp
              ring
            have e2 : 1 - (((Tho - Tci) / (Thi - Tco)) ^ ((n:ℝ))⁻¹ - 1) /
                (1 + ((Tho - Tci) / (Thi - Tco)) ^ ((n:ℝ))⁻¹) =
                2 / (1 + ((Tho - Tci) / (Thi - Tco)) ^ ((n:ℝ))⁻¹) := by
              field_simp
              ring
            rw [Afun, e1, e2,
              Real.log_div (mul_ne_zero two_ne_zero (hWpos n).ne') h1Wne,
              Real.log_div two_ne_zero h1Wne,
              Real.log_mul two_ne_zero (hWpos n).ne']
            ring
          refine (fakheri_branch_eval Tci Tco Thi Tho n _ _ _ _
            hTc hTh hR1 h1P.ne' (by rw [hx0eq]) hS hσgt hτ0
            (by linarith) (num_id_neg _ _ h1Wne) (den_id_neg _ _ h1Wne)
            ?_).2 hdom
          rw [hAτ, neg_mul]
      · -- R > 1, so x0 < 1
        have hx01 : (Tho - Tci) / (Thi - Tco) < 1 := by
          by_contra hcon
          push_neg at hcon
          have hle : (1 - (Tho - Tci) / (Thi - Tco)) *
              ((Thi - Tco) / (Tco - Tci)) ≤ 0 :=
            mul_nonpos_of_nonpos_of_nonneg (by linarith) hf.le
          rw [← hsign] at hle
          have : 0 < (Thi - Tho) / (Tco - Tci) - 1 := by linarith
          linarith
        have hS : Real.sqrt ((Thi - Tho) / (Tco - Tci) *
            ((Thi - Tho) / (Tco - Tci)) + 1) /
            ((Thi - Tho) / (Tco - Tci) - 1) =
            Real.sqrt ((Thi - Tho) / (Tco - Tci) *
              ((Thi - Tho) / (Tco - Tci)) + 1) /
              |(Thi - Tho) / (Tco - Tci) - 1| := by
          rw [abs_of_pos (show 0 < (Thi - Tho) / (Tco - Tci) - 1 by linarith)]
        have hWpos : ∀ n : ℕ,
            0 < ((Tho - Tci) / (Thi - Tco)) ^ ((n:ℝ))⁻¹ :=
          fun n => Real.rpow_pos_of_pos hx00 _
        have hWlt1 : ∀ n : ℕ, 1 ≤ n →
            ((Tho - Tci) / (Thi - Tco)) ^ ((n:ℝ))⁻¹ < 1 := by
          intro n hn
          have hn0 : (0:ℝ) < (n:ℝ) := by
            exact_mod_cast Nat.lt_of_lt_of_le Nat.zero_lt_one hn
          exact Real.rpow_lt_one hx00.le hx01 (inv_pos.mpr hn0)
        refine ⟨fun t => Real.sqrt ((Thi - Tho) / (Tco - Tci) *
            ((Thi - Tho) / (Tco - Tci)) + 1) /
            |(Thi - Tho) / (Tco - Tci) - 1| * Afun t /
            Afun (Real.sqrt ((Thi - Tho) / (Tco - Tci) *
              ((Thi - Tho) / (Tco - Tci)) + 1) /
              |(Thi - Tho) / (Tco - Tci) - 1| * t),
          fun t => Real.sqrt ((Thi - Tho) / (Tco - Tci) *
            ((Thi - Tho) / (Tco - Tci)) + 1) /
            |(Thi - Tho) / (Tco - Tci) - 1| * t < 1,
          fun n => (1 - ((Tho - Tci) / (Thi - Tco)) ^ ((n:ℝ))⁻¹) /
            (1 + ((Tho - Tci) / (Thi - Tco)) ^ ((n:ℝ))⁻¹),
          ?_, ?_, ?_, core_tendsto hσgt, ?_, ?_, ?_, ?_, ?_⟩
        · intro a b h0 hab hb
          have := mul_lt_mul_of_pos_left hab hσ0
          linarith
        · intro a h0 ha
          exact core_lt_one hσgt h0 ha
        · intro a b h0 hab hb
          exact Gratio_antitone hσgt h0 hab hb
        · intro n hn
          have hW1 := hWlt1 n hn
          have hW0 := hWpos n
          exact div_pos (by linarith) (by linarith)
        · intro n m hn hnm
          have hn0 : (0:ℝ) < (n:ℝ) := by
            exact_mod_cast Nat.lt_of_lt_of_le Nat.zero_lt_one hn
          have hm' : (n:ℝ) < (m:ℝ) := by exact_mod_cast hnm
          have hexp : ((m:ℝ))⁻¹ < ((n:ℝ))⁻¹ := inv_lt_inv_of_lt hn0 hm'
          have hWlt := Real.rpow_lt_rpow_of_exponent_gt hx00 hx01 hexp
          exact one_sub_div_one_add_lt
            (by linarith [hWpos n] : (-1:ℝ) < _) hWlt
        · have hlogmul := tendsto_inverse_atTop_nhds_zero_nat.const_mul
            (Real.log ((Tho - Tci) / (Thi - Tco)))
          rw [mul_zero] at hlogmul
          have hexp := (Real.continuous_exp.tendsto 0).comp hlogmul
          rw [Real.exp_zero] at hexp
          have hWlim : Filter.Tendsto
              (fun n : ℕ => ((Tho - Tci) / (Thi - Tco)) ^ ((n:ℝ))⁻¹)
              Filter.atTop (nhds 1) := by
            refine hexp.congr ?_
            intro n
            rw [Function.comp]
            rw [Real.rpow_def_of_pos hx00, mul_comm]
          have hconst : Filter.Tendsto (fun _ : ℕ => (1:ℝ))
              Filter.atTop (nhds 1) := tendsto_const_nhds
          have hτlim := (hconst.sub hWlim).div
            (hconst.add hWlim) (by norm_num : (1:ℝ) + 1 ≠ 0)
          norm_num at hτlim
          have hτlim2 : Filter.Tendsto
              (fun n : ℕ => (1 - ((Tho - Tci) / (Thi - Tco)) ^ ((n:ℝ))⁻¹) /
                (1 + ((Tho - Tci) / (Thi - Tco)) ^ ((n:ℝ))⁻¹))
              Filter.atTop (nhds 0) := hτlim
          refine tendsto_nhdsWithin_of_tendsto_nhds_of_eventually_within _
            hτlim2 ?_
          refine Filter.eventually_atTop.mpr ⟨1, fun n hn => ?_⟩
          have hW1 := hWlt1 n hn
          have hW0 := hWpos n
          have hp : 0 < (1 - ((Tho - Tci) / (Thi - Tco)) ^ ((n:ℝ))⁻¹) /
              (1 + ((Tho - Tci) / (Thi - Tco)) ^ ((n:ℝ))⁻¹) :=
            div_pos (by linarith) (by linarith)
          exact hp
        · intro n hn hdom
          have hW1 := hWlt1 n hn
          have hW0 := hWpos n
          have h1Wne : (1:ℝ) + ((Tho - Tci) / (Thi - Tco)) ^ ((n:ℝ))⁻¹ ≠ 0 := by
            positivity
          have hτ0 : 0 < (1 - ((Tho - Tci) / (Thi - Tco)) ^ ((n:ℝ))⁻¹) /
              (1 + ((Tho - Tci) / (Thi - Tco)) ^ ((n:ℝ))⁻¹) :=
            div_pos (by linarith) (by linarith)
          have hAτ : Afun ((1 - ((Tho - Tci) / (Thi - Tco)) ^ ((n:ℝ))⁻¹) /
              (1 + ((Tho - Tci) / (Thi - Tco)) ^ ((n:ℝ))⁻¹)) =
              -Real.log (((Tho - Tci) / (Thi - Tco)) ^ ((n:ℝ))⁻¹) := by
            have e1 : 1 + (1 - ((Tho - Tci) / (Thi - Tco)) ^ ((n:ℝ))⁻¹) /
                (1 + ((Tho - Tci) / (Thi - Tco)) ^ ((n:ℝ))⁻¹) =
                2 / (1 + ((Tho - Tci) / (Thi - Tco)) ^ ((n:ℝ))⁻¹) := by
              field_simp
              ring
            have e2 : 1 - (1 - ((Tho - Tci) / (Thi - Tco)) ^ ((n:ℝ))⁻¹) /
                (1 + ((Tho - Tci) / (Thi - Tco)) ^ ((n:ℝ))⁻¹) =
                2 * ((Tho - Tci) / (Thi - Tco)) ^ ((n:ℝ))⁻¹ /
                (1 + ((Tho - Tci) / (Thi - Tco)) ^ ((n:ℝ))⁻¹) := by
              field_simp
              ring
            rw [Afun, e1, e2,
              Real.log_div two_ne_zero h1Wne,
              Real.log_div (mul_ne_zero two_ne_zero (hWpos n).ne') h1Wne,
              Real.log_mul two_ne_zero (hWpos n).ne']
            ring
          refine (fakheri_branch_eval Tci Tco Thi Tho n _ _ _ _
            hTc hTh hR1 h1P.ne' (by rw [hx0eq]) hS hσgt hτ0
            (by linarith) (num_id_pos _ _ h1Wne) (den_id_pos _ _ h1Wne)
            ?_).1 hdom
          rw [hAτ, mul_neg, neg_neg]
        · intro n hn hdom
          have hW1 := hWlt1 n hn
          have hW0 := hWpos n
          have h1Wne : (1:ℝ) + ((Tho - Tci) / (Thi - Tco)) ^ ((n:ℝ))⁻¹ ≠ 0 := by
            positivity
          have hτ0 : 0 < (1 - ((Tho - Tci) / (Thi - Tco)) ^ ((n:ℝ))⁻¹) /
              (1 + ((Tho - Tci) / (Thi - Tco)) ^ ((n:ℝ))⁻¹) :=
            div_pos (by linarith) (by linarith)
          have hAτ : Afun ((1 - ((Tho - Tci) / (Thi - Tco)) ^ ((n:ℝ))⁻¹) /
              (1 + ((Tho - Tci) / (Thi - Tco)) ^ ((n:ℝ))⁻¹)) =
              -Real.log (((Tho - Tci) / (Thi - Tco)) ^ ((n:ℝ))⁻¹) := by
            have e1 : 1 + (1 - ((Tho - Tci) / (Thi - Tco)) ^ ((n:ℝ))⁻¹) /
                (1 + ((Tho - Tci) / (Thi - Tco)) ^ ((n:ℝ))⁻¹) =
                2 / (1 + ((Tho - Tci) / (Thi - Tco)) ^ ((n:ℝ))⁻¹) := by
              field_simp
              ring
            have e2 : 1 - (1 - ((Tho - Tci) / (Thi - Tco)) ^ ((n:ℝ))⁻¹) /
                (1 + ((Tho - Tci) / (Thi - Tco)) ^ ((n:ℝ))⁻¹) =
                2 * ((Tho - Tci) / (Thi - Tco)) ^ ((n:ℝ))⁻¹ /
                (1 + ((Tho - Tci) / (Thi - Tco)) ^ ((n:ℝ))⁻¹) := by
              field_simp
              ring
            rw [Afun, e1, e2,
              Real.log_div two_ne_zero h1Wne,
              Real.log_div (mul_ne_zero two_ne_zero (hWpos n).ne') h1Wne,
              Real.log_mul two_ne_zero (hWpos n).ne']
            ring
          refine (fakheri_branch_eval Tci Tco Thi Tho n _ _ _ _
            hTc hTh hR1 h1P.ne' (by rw [hx0eq]) hS hσgt hτ0
            (by linarith) (num_id_pos _ _ h1Wne) (den_id_pos _ _ h1Wne)
            ?_).2 hdom
          rw [hAτ, mul_neg, neg_neg]

/-- C8 (amended): for valid temperatures `Tci < Tco ≤ Thi`,
`Tci < Tho < Thi`, whenever `F_LMTD_Fakheri` succeeds at some shell
count `n ≥ 1` with value `x`, then `x < 1`; it succeeds at every larger
shell count with a strictly larger value still below `1` (monotone
increase); and the returned values approach `1` as the shell count
grows. -/
theorem F_LMTD_Fakheri_facts (Tci Tco Thi Tho : ℝ) (n : ℕ) (x : ℝ)
    (h1 : Tci < Tco) (h2 : Tco ≤ Thi) (h3 : Tci < Tho) (h4 : Tho < Thi)
    (hn : 1 ≤ n) (hok : F_LMTD_Fakheri Tci Tco Thi Tho n = .ok x) :
    x < 1 ∧
    (∀ m, n < m → ∃ y, F_LMTD_Fakheri Tci Tco Thi Tho m = .ok y ∧
      x < y ∧ y < 1) ∧
    (∀ ε : ℝ, 0 < ε → ∃ N, ∀ m, N ≤ m → ∃ y,
      F_LMTD_Fakheri Tci Tco Thi Tho m = .ok y ∧ 1 - ε < y ∧ y < 1) := by
  obtain ⟨Φ, dom, τ, hdown, hlt1, hmono, hΦlim, hτpos, hτdec, hτlim,
    hokc, herrc⟩ := fakheri_char Tci Tco Thi Tho h1 h2 h3 h4
  have hdomn : dom (τ n) := by
    by_contra hcon
    exact herrc n hn hcon x hok
  have hx : x = Φ (τ n) := by
    have h := hokc n hn hdomn
    rw [hok] at h
    exact Except.ok.inj h
  have hsucc : ∀ m, 1 ≤ m → τ m < τ n → ∃ y,
      F_LMTD_Fakheri Tci Tco Thi Tho m = .ok y ∧
      y = Φ (τ m) ∧ Φ (τ n) < y ∧ y < 1 := by
    intro m hm hlt
    have hpos : 0 < τ m := hτpos m hm
    have hdm : dom (τ m) := hdown (τ m) (τ n) hpos hlt hdomn
    exact ⟨Φ (τ m), hokc m hm hdm, rfl,
      hmono (τ m) (τ n) hpos hlt hdomn, hlt1 (τ m) hpos hdm⟩
  refine ⟨?_, ?_, ?_⟩
  · rw [hx]
    exact hlt1 (τ n) (hτpos n hn) hdomn
  · intro m hnm
    have hm : 1 ≤ m := le_trans hn (le_of_lt hnm)
    obtain ⟨y, hy, _, hxy, hy1⟩ := hsucc m hm (hτdec n m hn hnm)
    exact ⟨y, hy, by rw [hx]; exact hxy, hy1⟩
  · intro ε hε
    have hcomp : Filter.Tendsto (fun m : ℕ => Φ (τ m))
        Filter.atTop (nhds 1) := hΦlim.comp hτlim
    have hev : ∀ᶠ m in Filter.atTop, 1 - ε < Φ (τ m) :=
      hcomp.eventually (eventually_gt_nhds (by linarith))
    obtain ⟨N0, hN0⟩ := Filter.eventually_atTop.mp hev
    refine ⟨max N0 (n + 1), fun m hm => ?_⟩
    have hm1 : n + 1 ≤ m := le_trans (le_max_right _ _) hm
    have hm' : 1 ≤ m := by omega
    have hnm : n < m := by omega
    obtain ⟨y, hy, hyΦ, _, hy1⟩ := hsucc m hm' (hτdec n m hn hnm)
    refine ⟨y, hy, ?_, hy1⟩
    rw [hyΦ]
    exact hN0 m (le_trans (le_max_left _ _) hm)

/-- C8 (counterexample to the original wording): the temperatures
`Tci = 10`, `Tco = 20`, `Thi = 100`, `Tho = 0` satisfy the original
constraints `Tci < Tco ≤ Thi` and `Tho < Thi`, yet with one shell
`F_LMTD_Fakheri` raises a math-domain error instead of returning a
value below one: the required logarithm argument is negative. -/
theorem F_LMTD_Fakheri_counterexample :
    ((10:ℝ) < 20 ∧ (20:ℝ) ≤ 100 ∧ (0:ℝ) < 100) ∧
    F_LMTD_Fakheri 10 20 100 0 1 = .error .mathDomain ∧
    (∀ y : ℝ, F_LMTD_Fakheri 10 20 100 0 1 ≠ .ok y) := by
  have hsqrt : (7:ℝ) < Real.sqrt 101 :=
    (Real.lt_sqrt (by norm_num)).mpr (by norm_num)
  have hsq0 : (0:ℝ) ≤ Real.sqrt 101 := Real.sqrt_nonneg _
  have hWeq : ((1 - (20 - 10) / ((100:ℝ) - 10) *
      ((100 - 0) / (20 - 10))) / (1 - (20 - 10) / ((100:ℝ) - 10))) ^
      (((1:ℕ):ℝ)⁻¹) = -(1/8) := by
    rw [show (((1:ℕ):ℝ))⁻¹ = (1:ℝ) by norm_num, Real.rpow_one]
    norm_num
  have hSeq : Real.sqrt (((100:ℝ) - 0) / (20 - 10) *
      (((100:ℝ) - 0) / (20 - 10)) + 1) / (((100:ℝ) - 0) / (20 - 10) - 1) =
      Real.sqrt 101 / 9 := by
    norm_num
  have hmain : F_LMTD_Fakheri 10 20 100 0 1 = .error .mathDomain := by
    simp only [F_LMTD_Fakheri]
    rw [if_neg (by norm_num : ¬((20:ℝ) - 10 = 0)),
      if_neg (by norm_num : ¬((100:ℝ) - 10 = 0)),
      if_neg (by norm_num : ¬(((100:ℝ) - 0) / (20 - 10) = 1)),
      if_neg (by norm_num : ¬(1 - (20 - 10) / ((100:ℝ) - 10) = 0)),
      hWeq, hSeq]
    rw [if_neg (show ¬(1 + -(1/8) + Real.sqrt 101 / 9 -
        Real.sqrt 101 / 9 * -(1/8) = 0) by intro h; nlinarith),
      if_pos (show (1 + -(1/8) - Real.sqrt 101 / 9 +
          Real.sqrt 101 / 9 * -(1/8)) / (1 + -(1/8) + Real.sqrt 101 / 9 -
          Real.sqrt 101 / 9 * -(1/8)) ≤ 0 from
        div_nonpos_iff.mpr (Or.inr ⟨by nlinarith, by nlinarith⟩))]
  refine ⟨⟨by norm_num, by norm_num, by norm_num⟩, hmain, fun y h => ?_⟩
  rw [hmain] at h
  exact Except.noConfusion h

/-- C8 witness: at `Tci = 15`, `Tco = 85`, `Thi = 130`, `Tho = 110` and
one shell, `F_LMTD_Fakheri` succeeds and the amended theorem applies:
the returned correction factor is below one. -/
theorem F_LMTD_Fakheri_facts_witness :
    ((15:ℝ) < 85 ∧ (85:ℝ) ≤ 130 ∧ (15:ℝ) < 110 ∧ (110:ℝ) < 130 ∧
      1 ≤ 1) ∧
    ∃ x : ℝ, F_LMTD_Fakheri 15 85 130 110 1 = .ok x ∧ x < 1 := by
  have hsqrt : (5:ℝ) < Real.sqrt 53 :=
    (Real.lt_sqrt (by norm_num)).mpr (by norm_num)
  have hσ : (1:ℝ) < Real.sqrt 53 / 5 := by
    rw [lt_div_iff (by norm_num : (0:ℝ) < 5)]
    linarith
  have h49 : Real.sqrt 49 = 7 := by
    rw [show (49:ℝ) = 7 ^ 2 by norm_num, Real.sqrt_sq (by norm_num : (0:ℝ) ≤ 7)]
  have hSdef : Real.sqrt (((130:ℝ) - 110) / (85 - 15) *
      (((130:ℝ) - 110) / (85 - 15)) + 1) /
      (((130:ℝ) - 110) / (85 - 15) - 1) = -(Real.sqrt 53 / 5) := by
    rw [show ((130:ℝ) - 110) / (85 - 15) * (((130:ℝ) - 110) / (85 - 15)) + 1 =
        53 / 49 by norm_num,
      show ((130:ℝ) - 110) / (85 - 15) - 1 = -(5/7) by norm_num,
      Real.sqrt_div (by norm_num : (0:ℝ) ≤ 53), h49, div_neg, neg_inj,
      div_div]
    norm_num
  have hWdef : ((1 - (85 - 15) / ((130:ℝ) - 15) *
      ((130 - 110) / (85 - 15))) / (1 - (85 - 15) / ((130:ℝ) - 15))) ^
      (((1:ℕ):ℝ)⁻¹) = (19/9 : ℝ) := by
    rw [show (((1:ℕ):ℝ))⁻¹ = (1:ℝ) by norm_num, Real.rpow_one]
    norm_num
  have hAτ : Afun (5/14) = Real.log (19/9) := by
    rw [Afun, show (1:ℝ) + 5/14 = 19/14 by norm_num,
      show (1:ℝ) - 5/14 = 9/14 by norm_num,
      ← Real.log_div (by norm_num) (by norm_num)]
    norm_num
  have hdom : Real.sqrt 53 / 5 * (5/14) < 1 := by
    rw [show Real.sqrt 53 / 5 * (5/14 : ℝ) = Real.sqrt 53 / 14 by ring,
      div_lt_one (by norm_num : (0:ℝ) < 14)]
    exact (Real.sqrt_lt' (by norm_num)).mpr (by norm_num)
  have hok : F_LMTD_Fakheri 15 85 130 110 1 =
      .ok (Real.sqrt 53 / 5 * Afun (5/14) /
        Afun (Real.sqrt 53 / 5 * (5/14))) := by
    refine (fakheri_branch_eval 15 85 130 110 1 (Real.sqrt 53 / 5) (5/14)
      (19/9) (-(Real.sqrt 53 / 5))
      (by norm_num) (by norm_num) (by norm_num) (by norm_num)
      hWdef hSdef hσ (by norm_num) (by norm_num) (by ring) (by ring)
      ?_).1 hdom
    rw [hAτ, neg_mul]
  refine ⟨⟨by norm_num, by norm_num, by norm_num, by norm_num, le_refl 1⟩,
    _, hok, ?_⟩
  exact (F_LMTD_Fakheri_facts 15 85 130 110 1 _ (by norm_num) (by norm_num)
    (by norm_num) (by norm_num) (le_refl 1) hok).1

end HT
